import Mathlib

/-!
# Verification of the Auctorian core against its specification

Shallow embedding of the Auctorian decision-support backend:

* `Policy`  — `backend/core/policy_engine.py` (auctorian tree): hierarchical
  policy lookup and action validation.
* `Agency`  — `backend/core/agency.py`: decision packages, replay-protected
  queueing and batch execution.
* `Domain`  — `backend/core/domain_model.py` + `backend/core/dna.py`: schema
  registry, constitutional validation, system lock.
* `Ingest`  — `auctorian/backend/core/ingestion.py` (v3.0 engine) and
  `BIngest` — `backend/core/ingestion.py` (v3.1 engine): event/object ETL.

Conventions: Python floats are embedded as `ℚ` (the code paths under
verification perform no lossy float arithmetic: they compare, store and
reformat values, which is exact on the decimal literals involved);
SQL tables are lists of rows; cryptographic digests (md5/sha256) are
modelled as the injective identity on their input payload (a collision-free
abstraction); impure inputs (uuids, wall-clock timestamps) are taken as
explicit parameters.
-/

namespace Util

/-- Digit-string to number: `some` of the value when the character list is a
nonempty run of decimal digits, else `none`. -/
def parseDigits (s : List Char) : Option ℕ :=
  if s ≠ [] ∧ s.all Char.isDigit then
    some (s.foldl (fun a c => a * 10 + (c.toNat - 48)) 0)
  else none

/-- Value of a (possibly empty) digit string; empty counts as 0.  Used for the
integer / fractional parts of a Python float literal such as `".5"` or `"5."`. -/
def natOfDigits (s : List Char) : ℕ :=
  s.foldl (fun a c => a * 10 + (c.toNat - 48)) 0

/-- The whitespace set of Python's `str.strip()` (ASCII). -/
def pyIsSpace (c : Char) : Bool :=
  c = ' ' || c = '\t' || c = '\n' || c = '\r' || c = '\x0b' || c = '\x0c'

/-- `str.strip()`: drop leading and trailing whitespace. -/
def pyStrip (s : String) : String :=
  String.mk (((s.toList.dropWhile pyIsSpace).reverse.dropWhile pyIsSpace).reverse)

def lowerChar (c : Char) : Char :=
  if 'A' ≤ c ∧ c ≤ 'Z' then Char.ofNat (c.toNat + 32) else c

def upperChar (c : Char) : Char :=
  if 'a' ≤ c ∧ c ≤ 'z' then Char.ofNat (c.toNat - 32) else c

/-- `str.lower()` on the ASCII data this system handles. -/
def pyLower (s : String) : String := String.mk (s.toList.map lowerChar)

/-- `str.upper()` on the ASCII data this system handles. -/
def pyUpper (s : String) : String := String.mk (s.toList.map upperChar)

/-- Split a character list at every occurrence of a separator character. -/
def splitOnChar (sep : Char) : List Char → List (List Char)
  | [] => [[]]
  | c :: rest =>
      let r := splitOnChar sep rest
      if c = sep then [] :: r
      else
        match r with
        | g :: gs => (c :: g) :: gs
        | [] => [[c]]

/-- Left-pad a numeral with zeros to the given width (as `strftime` does). -/
def padZeros (n width : ℕ) : String :=
  let s := toString n
  String.mk (List.replicate (width - s.length) '0') ++ s

/-- Model of CPython's `str()` on a float whose value has a finite decimal
expansion (every numeric value exercised in this development does).  Integral
values render as `"45.0"`, others with their shortest decimal digits. -/
def fmtPyFloat (q : ℚ) : String :=
  let sign := if q < 0 then "-" else ""
  let a : ℚ := |q|
  if a.den = 1 then sign ++ toString a.num ++ ".0"
  else
    match (List.range 17).find? (fun k => (a * (10 : ℚ) ^ (k + 1)).den = 1) with
    | some k =>
        let p : ℤ := (10 : ℤ) ^ (k + 1)
        let scaled : ℤ := (a * (10 : ℚ) ^ (k + 1)).num
        let ip := scaled / p
        let fp := (scaled % p).toNat
        sign ++ toString ip ++ "." ++ padZeros fp (k + 1)
    | none => sign ++ toString a.num ++ "/" ++ toString a.den

/-- Round to `digits` decimal places (ties away from the floor only on the
exact half, matching the decimal values exercised here). -/
def roundTo (q : ℚ) (digits : ℕ) : ℤ :=
  let s := q * (10 : ℚ) ^ digits
  ⌊s + 1 / 2⌋

/-- Helper for `commaGroup`: chunk a reversed digit list into groups of three. -/
def commaChunks (l : List Char) : List Char :=
  if _h : l.length ≤ 3 then l
  else l.take 3 ++ [','] ++ commaChunks (l.drop 3)
termination_by l.length
decreasing_by simp; omega

/-- Group a digit string with thousands separators, as Python's `","` format. -/
def commaGroup (s : String) : String :=
  String.mk ((commaChunks s.toList.reverse).reverse)

/-- Model of Python's `"{:,.2f}"` format (two decimals, comma grouping). -/
def fmtComma2 (q : ℚ) : String :=
  let n := roundTo q 2
  let sign := if n < 0 then "-" else ""
  let m := n.natAbs
  sign ++ commaGroup (toString (m / 100)) ++ "." ++ padZeros (m % 100) 2

/-- Model of Python's `"{:.1f}"` format (one decimal place). -/
def fmtFix1 (q : ℚ) : String :=
  let n := roundTo q 1
  let sign := if n < 0 then "-" else ""
  let m := n.natAbs
  sign ++ toString (m / 10) ++ "." ++ toString (m % 10)

end Util

/-- Decidable equality for `Except`, so concrete engine outcomes can be
checked by `decide`. -/
instance {ε α : Type} [DecidableEq ε] [DecidableEq α] :
    DecidableEq (Except ε α) := fun a b =>
  match a, b with
  | .ok x, .ok y =>
      if h : x = y then .isTrue (by rw [h])
      else .isFalse (by intro hh; cases hh; exact h rfl)
  | .error x, .error y =>
      if h : x = y then .isTrue (by rw [h])
      else .isFalse (by intro hh; cases hh; exact h rfl)
  | .ok _, .error _ => .isFalse (by intro hh; cases hh)
  | .error _, .ok _ => .isFalse (by intro hh; cases hh)

namespace Policy

/-- One row of the `governance_policies` table.  The stored
`policy_value` JSON payload `{"value": v, ...}` is embedded by its numeric
`value` field, which is all `_fetch_policy` reads back. -/
structure PolicyRow where
  policy_key : String
  entity_id : String
  value : ℚ
deriving DecidableEq, Repr

abbrev PolicyDB := List PolicyRow

/-- `SELECT policy_value FROM governance_policies WHERE policy_key=? AND
entity_id=?` followed by `fetchone()`: the first matching row, if any. -/
def fetchOne (db : PolicyDB) (key entity : String) : Option ℚ :=
  (db.find? (fun r => r.policy_key == key && r.entity_id == entity)).map (·.value)

/-- `PolicyEngine.DEFAULTS`: the hard-coded fallback policy constants. -/
def DEFAULTS : List (String × ℚ) :=
  [("MAX_AUTO_SPEND", 5000),
   ("MIN_MARGIN_PCT", 20),
   ("MAX_PRICE_HIKE_PCT", 10),
   ("MAX_MARKDOWN_DEPTH", 40),
   ("SYSTEM_3_TRIGGER", 60)]

/-- `self.DEFAULTS.get(key, 0.0)`. -/
def defaultsGet (key : String) : ℚ :=
  match DEFAULTS.find? (fun p => p.fst == key) with
  | some p => p.snd
  | none => 0

/-- Tiers 2 and 3 of `PolicyEngine._fetch_policy`: the `GLOBAL` row, else the
compiled default. -/
def fetchGlobalOrDefault (db : PolicyDB) (key : String) : ℚ :=
  match fetchOne db key "GLOBAL" with
  | some v => v
  | none => defaultsGet key

/-- `PolicyEngine._fetch_policy(key, entity_id)`: entity-specific row, else
`GLOBAL` row, else compiled default.  `if entity_id:` is Python truthiness, so
`none` and the empty string both skip tier 1. -/
def fetch_policy (db : PolicyDB) (key : String) (entity_id : Option String) : ℚ :=
  match entity_id with
  | some e =>
      if e ≠ "" then
        match fetchOne db key e with
        | some v => v
        | none => fetchGlobalOrDefault db key
      else fetchGlobalOrDefault db key
  | none => fetchGlobalOrDefault db key

/-- The only Python exception reachable in `validate_action`:
`context.get(...)` with `context = None`. -/
inductive PyError
  | attributeError
deriving DecidableEq, Repr

/-- The `context` dict: string keys to numeric values (the engine reads only
`'cost'` and `'current_price'`). -/
abbrev Ctx := List (String × ℚ)

def ctxGet (c : Ctx) (k : String) : Option ℚ :=
  (c.find? (fun p => p.fst == k)).map (·.snd)

/-- `PolicyEngine.validate_action(action_type, value, entity_id, context)`. -/
def validate_action (db : PolicyDB) (action_type : String) (value : ℚ)
    (entity_id : String) (context : Option Ctx) : Except PyError (Bool × String) :=
  if action_type = "ORDER" then
    let limit := fetch_policy db "MAX_AUTO_SPEND" (some entity_id)
    let cost0 := value * 50
    let cost :=
      match context with
      | some c =>
          if c ≠ [] then
            match ctxGet c "cost" with
            | some v => v
            | none => cost0
          else cost0
      | none => cost0
    if cost > limit then
      .ok (false, "Cost $" ++ Util.fmtComma2 cost ++ " exceeds Auto-Limit ($" ++
                  Util.fmtComma2 limit ++ ")")
    else .ok (true, "Approved")
  else if action_type = "HIKE" then
    match context with
    | none => .error .attributeError
    | some c =>
        let old_price := (ctxGet c "current_price").getD value
        if old_price > 0 then
          let pct_change := (value - old_price) / old_price * 100
          let max_hike := fetch_policy db "MAX_PRICE_HIKE_PCT" (some entity_id)
          if pct_change > max_hike then
            .ok (false, "Hike (+" ++ Util.fmtFix1 pct_change ++ "%) exceeds safety cap (" ++
                        Util.fmtPyFloat max_hike ++ "%)")
          else .ok (true, "Approved")
        else .ok (true, "Approved")
  else if action_type = "MARKDOWN" then
    let max_depth := fetch_policy db "MAX_MARKDOWN_DEPTH" (some entity_id)
    if value > max_depth then
      .ok (false, "Markdown (" ++ Util.fmtPyFloat value ++ "%) exceeds max depth (" ++
                  Util.fmtPyFloat max_depth ++ "%)")
    else .ok (true, "Approved")
  else .ok (true, "Approved")

end Policy

namespace Agency

inductive PkgStatus
  | pending
  | executed
  | failed
  | skipped
deriving DecidableEq, Repr

/-- `DecisionPackage` (`backend/core/agency.py`). -/
structure DecisionPackage where
  id : String
  timestamp : String
  nonce : String
  action : String
  target_id : String
  quantity : ℚ
  reason : String
  status : PkgStatus
  hash : String
deriving DecidableEq, Repr

/-- `DecisionPackage._generate_hash`: sha256 over
`f"{action}{target_id}{quantity}{timestamp}{nonce}"`, modelled as the
injective identity on that payload string (collision-free abstraction of the
digest).  `{quantity}` interpolates the float via `str`. -/
def generate_hash (action target_id : String) (quantity : ℚ)
    (timestamp nonce : String) : String :=
  action ++ target_id ++ Util.fmtPyFloat quantity ++ timestamp ++ nonce

/-- `DecisionPackage.__init__`; the uuid-derived `id`, the wall-clock
`timestamp` and the random `nonce` are impure and passed as parameters. -/
def mkDecisionPackage (id timestamp nonce action target_id : String)
    (quantity : ℚ) (reason : String) : DecisionPackage :=
  { id, timestamp, nonce, action, target_id, quantity, reason,
    status := .pending,
    hash := generate_hash action target_id quantity timestamp nonce }

/-- One audit row written by the Ledger on behalf of the agent.

Modelled from the spec: `backend/core/ledger.py` (the module `agency.py`
imports its `ledger` singleton from) is absent from the sources; per spec
§4.4 the Ledger's `record_transaction` "appends immutable audit rows" and
never updates existing ones. -/
structure LedgerTx where
  node_id : String
  tx_type : String
  quantity : ℚ
  source : String
  pkg_id : String
  reason : String
deriving DecidableEq, Repr

/-- Modelled from the spec: `ledger.record_transaction(target, type, qty,
meta=...)` appends one immutable audit row and succeeds (spec §4.4; §4.4 also
names the Ledger, not the dispatch, as the durable system of record). -/
def record_transaction (ledger : List LedgerTx) (node_id tx_type : String)
    (quantity : ℚ) (pkg_id reason : String) : List LedgerTx :=
  ledger ++ [⟨node_id, tx_type, quantity, "AUCTOBOT", pkg_id, reason⟩]

/-- The `Auctobot` agent state: in-memory queue, history, executed-hash set
(kept as a list of distinct inserts) and the Ledger rows written so far. -/
structure AuctobotState where
  queue : List DecisionPackage
  history : List DecisionPackage
  executed_hashes : List String
  ledger : List LedgerTx
deriving DecidableEq, Repr

def initState : AuctobotState := ⟨[], [], [], []⟩

/-- `Auctobot.queue_decision`: reject (no-op) when the hash was already
executed, else append to the queue. -/
def queue_decision (st : AuctobotState) (pkg : DecisionPackage) : AuctobotState :=
  if pkg.hash ∈ st.executed_hashes then st
  else { st with queue := st.queue ++ [pkg] }

/-- One per-package entry of the `execute_batch` results list. -/
inductive ExecResult
  | success (id hash : String)
  | skipped (id reason : String)
  | failed (id error : String)
deriving DecidableEq, Repr

/-- One iteration of the `execute_batch` loop: returns the updated state, the
package with its final status (Python mutates the shared object) and the
results entry. -/
def execStep (st : AuctobotState) (pkg : DecisionPackage) :
    AuctobotState × DecisionPackage × ExecResult :=
  if pkg.hash ∈ st.executed_hashes then
    (st, { pkg with status := .skipped }, .skipped pkg.id "Duplicate hash")
  else if pkg.action = "REPLENISH" then
    let p := { pkg with status := .executed }
    ({ st with
         ledger := record_transaction st.ledger pkg.target_id "RECEIPTS_QTY"
                     pkg.quantity pkg.id pkg.reason,
         executed_hashes := st.executed_hashes ++ [pkg.hash],
         history := st.history ++ [p] },
     p, .success pkg.id pkg.hash)
  else if pkg.action = "PRICE_CHANGE" then
    let p := { pkg with status := .executed }
    ({ st with
         ledger := record_transaction st.ledger pkg.target_id "PRICE"
                     pkg.quantity pkg.id pkg.reason,
         executed_hashes := st.executed_hashes ++ [pkg.hash],
         history := st.history ++ [p] },
     p, .success pkg.id pkg.hash)
  else
    -- `raise ValueError(f"Unknown action: {pkg.action}")`, caught by the
    -- `except` arm: FAILED, appended to history, hash NOT recorded.
    let p := { pkg with status := .failed }
    ({ st with history := st.history ++ [p] },
     p, .failed pkg.id ("Unknown action: " ++ pkg.action))

/-- The `for pkg in self.queue` loop of `execute_batch`. -/
def execLoop (st : AuctobotState) : List DecisionPackage →
    AuctobotState × List DecisionPackage × List ExecResult
  | [] => (st, [], [])
  | p :: rest =>
      let s1 := execStep st p
      let s2 := execLoop s1.1 rest
      (s2.1, s1.2.1 :: s2.2.1, s1.2.2 :: s2.2.2)

/-- `Auctobot.execute_batch`: run the loop over the queue, then clear the
queue unconditionally. -/
def execute_batch (st : AuctobotState) :
    AuctobotState × List DecisionPackage × List ExecResult :=
  let out := execLoop st st.queue
  ({ out.1 with queue := [] }, out.2.1, out.2.2)

/-- The agent's externally reachable mutations, for stating reachability
invariants. -/
inductive AgcOp
  | queue (pkg : DecisionPackage)
  | batch

def applyAgcOp (st : AuctobotState) : AgcOp → AuctobotState
  | .queue pkg => queue_decision st pkg
  | .batch => (execute_batch st).1

def runAgcOps (st : AuctobotState) : List AgcOp → AuctobotState
  | [] => st
  | op :: ops => runAgcOps (applyAgcOp st op) ops

/-- A batch step from `st` marks some package carrying hash `h` as EXECUTED. -/
def executesHash (st : AuctobotState) (h : String) : Prop :=
  ∃ p ∈ (execute_batch st).2.1, p.hash = h ∧ p.status = .executed

end Agency

namespace Domain

/-- One row of the `schema_registry` table, with the columns written by
`DomainManager.register_schema`. -/
structure SchemaRow where
  entity_type : String
  source_column_name : Option String
  generic_anchor : Option String
  family_type : String
  is_pk : Bool
  is_attribute : Bool
  is_hierarchy : Bool
  hierarchy_level : Option Int
  formula : Option String
deriving DecidableEq, Repr

/-- One input dict of the `rows` argument to `register_schema`; every key the
method reads, each optional (a Python dict may omit any of them). -/
structure FieldDef where
  name : Option String := none
  source_column_name : Option String := none
  generic_column_name : Option String := none
  generic_anchor : Option String := none
  family_type : Option String := none
  is_pk : Option Bool := none
  is_attribute : Option Bool := none
  is_hierarchy : Option Bool := none
  hierarchy_level : Option Int := none
  formula : Option String := none
deriving DecidableEq, Repr

/-- Python's `a or b` on two optional strings (`None` and `""` are falsy). -/
def pyOr (a b : Option String) : Option String :=
  match a with
  | some s => if s ≠ "" then some s else b
  | none => b

/-- The tuple built for each row in `register_schema`'s insert loop. -/
def toSchemaRow (entity_type : String) (r : FieldDef) : SchemaRow :=
  { entity_type,
    source_column_name := pyOr r.source_column_name r.name,
    generic_anchor := pyOr r.generic_column_name r.generic_anchor,
    family_type := r.family_type.getD "INTRINSIC",
    is_pk := r.is_pk.getD false,
    is_attribute := r.is_attribute.getD true,
    is_hierarchy := r.is_hierarchy.getD false,
    hierarchy_level := r.hierarchy_level,
    formula := r.formula }

/-- `RETAIL_STANDARDS` from `backend/core/dna.py`, keyed by entity type; only
the `mandatory_mappings` entry is consulted by `register_schema` (the
`families` entry is never read on the verified code paths). -/
def RETAIL_STANDARDS : List (String × List String) :=
  [("PRODUCT", ["ANCHOR_PRODUCT_ID", "ANCHOR_PRODUCT_NAME"]),
   ("INVENTORY", ["ANCHOR_PRODUCT_ID", "ANCHOR_STOCK_ON_HAND", "ANCHOR_DATE"]),
   ("PRICING", ["ANCHOR_PRODUCT_ID", "ANCHOR_RETAIL_PRICE", "ANCHOR_DATE"]),
   ("TRANSACTION", ["ANCHOR_PRODUCT_ID", "ANCHOR_SALES_QTY", "ANCHOR_DATE"]),
   ("EXTERNAL_SIGNAL", ["ANCHOR_DATE", "ANCHOR_SIGNAL_TYPE", "ANCHOR_VALUE"])]

/-- The persistent state a `DomainManager` reads and writes for governance:
the `system_config` table (key unique) and the `schema_registry` table. -/
structure StoreState where
  system_config : List (String × String)
  schema_registry : List SchemaRow
deriving DecidableEq, Repr

def emptyStore : StoreState := ⟨[], []⟩

/-- `DomainManager.is_system_locked`: `SELECT config_value FROM system_config
WHERE config_key = 'SYSTEM_LOCKED'`, then `res[0] == 'TRUE' if res else False`. -/
def is_system_locked (st : StoreState) : Bool :=
  match (st.system_config.find? (fun p => p.fst == "SYSTEM_LOCKED")).map (·.snd) with
  | some v => v == "TRUE"
  | none => false

/-- `DomainManager.lock_system`: `INSERT OR REPLACE INTO system_config`
(`config_key` is the primary key) of `('SYSTEM_LOCKED', 'TRUE', ...)`. -/
def lock_system (st : StoreState) : StoreState :=
  { st with system_config :=
      (st.system_config.filter (fun p => p.fst ≠ "SYSTEM_LOCKED")) ++
      [("SYSTEM_LOCKED", "TRUE")] }

/-- The anchors counted by the Article IV validation: values of the
`generic_anchor` key that are truthy (present and nonempty). -/
def providedAnchors (rows : List FieldDef) : List String :=
  (rows.filterMap (fun r => r.generic_anchor)).filter (fun s => s ≠ "")

inductive RegError
  | systemLocked
  | constitutionalViolation (entity_type : String) (missing : List String)
deriving DecidableEq, Repr

/-- The storage step of `register_schema`: `DELETE FROM schema_registry WHERE
entity_type = ?` then insert one row per field definition. -/
def storeRows (st : StoreState) (entity_type : String) (rows : List FieldDef) :
    StoreState :=
  { st with schema_registry :=
      (st.schema_registry.filter (fun r => r.entity_type ≠ entity_type)) ++
      rows.map (toSchemaRow entity_type) }

/-- `DomainManager.register_schema(entity_type, rows)`: refuse when locked;
validate mandatory anchors when the entity type is in the constitution
(unknown types are only warned about); then delete-and-insert the registry
rows for that type. -/
def register_schema (st : StoreState) (entity_type : String)
    (rows : List FieldDef) : Except RegError StoreState :=
  if is_system_locked st then .error .systemLocked
  else
    match RETAIL_STANDARDS.find? (fun p => p.fst == entity_type) with
    | some std =>
        let missing := std.snd.filter (fun a => a ∉ providedAnchors rows)
        if missing ≠ [] then .error (.constitutionalViolation entity_type missing)
        else .ok (storeRows st entity_type rows)
    | none => .ok (storeRows st entity_type rows)

/-- `DomainManager.delete_schema(entity_type)`: `DELETE FROM schema_registry
WHERE entity_type = ?`.  The method performs no lock check. -/
def delete_schema (st : StoreState) (entity_type : String) : StoreState :=
  { st with schema_registry :=
      st.schema_registry.filter (fun r => r.entity_type ≠ entity_type) }

inductive ApiError
  | locked423
deriving DecidableEq, Repr

/-- The `DELETE /ontology/schema/{entity_type}` endpoint of
`backend/main.py`: rejects with HTTP 423 while the system is locked, before
ever calling `DomainManager.delete_schema`. -/
def api_delete_schema (st : StoreState) (entity_type : String) :
    Except ApiError StoreState :=
  if is_system_locked st then .error .locked423
  else .ok (delete_schema st entity_type)

/-- The governance mutations reachable on a store, for lifetime invariants. -/
inductive DomainOp
  | register (entity_type : String) (rows : List FieldDef)
  | delete (entity_type : String)
  | lock
  | apiDelete (entity_type : String)

/-- Apply an operation; a raised error leaves the state as it was. -/
def applyDomainOp (st : StoreState) : DomainOp → StoreState
  | .register et rows =>
      match register_schema st et rows with
      | .ok st1 => st1
      | .error _ => st
  | .delete et => delete_schema st et
  | .lock => lock_system st
  | .apiDelete et =>
      match api_delete_schema st et with
      | .ok st1 => st1
      | .error _ => st

def runDomainOps (st : StoreState) : List DomainOp → StoreState
  | [] => st
  | op :: ops => runDomainOps (applyDomainOp st op) ops

end Domain

namespace Ingest

/-! Embedding of `auctorian/backend/core/ingestion.py` (the v3.0 engine).
Rows are taken at the output level of `csv.DictReader`: ordered association
lists of header name to cell string. -/

abbrev Row := List (String × String)

def rowKeys (r : Row) : List String := r.map Prod.fst

/-- `row.get(k)` / `row[k]`: first binding of the key, if any. -/
def rowGet (r : Row) (k : String) : Option String :=
  (r.find? (fun p => p.fst == k)).map Prod.snd

/-- The field order of the seven `_standardize_date` format strings. -/
inductive DOrder
  | ymd
  | mdy
  | dmy
deriving DecidableEq, Repr

structure DateFmt where
  ord : DOrder
  sep : Char
deriving DecidableEq, Repr

/-- The fixed ordered format list of `_standardize_date`:
`%Y-%m-%d, %m/%d/%Y, %d/%m/%Y, %Y/%m/%d, %d-%m-%Y, %Y.%m.%d, %d.%m.%Y`. -/
def dateFormats : List DateFmt :=
  [⟨.ymd, '-'⟩, ⟨.mdy, '/'⟩, ⟨.dmy, '/'⟩, ⟨.ymd, '/'⟩,
   ⟨.dmy, '-'⟩, ⟨.ymd, '.'⟩, ⟨.dmy, '.'⟩]

def isLeap (y : ℕ) : Bool :=
  (y % 4 == 0 && y % 100 != 0) || y % 400 == 0

def daysInMonth (y m : ℕ) : ℕ :=
  if m = 2 then (if isLeap y then 29 else 28)
  else if m = 4 ∨ m = 6 ∨ m = 9 ∨ m = 11 then 30
  else 31

/-- Component match of `%Y`: exactly four digits (CPython `_strptime`
compiles `%Y` to `\d\d\d\d`, so `"999"` matches no `%Y` format). -/
def matchY (t : List Char) : Option ℕ :=
  if t.length = 4 then Util.parseDigits t else none

/-- Component match of `%m` (CPython pattern `1[0-2]|0[1-9]|[1-9]`): one
digit 1-9 or two digits 01..12. -/
def matchM (t : List Char) : Option ℕ :=
  if t.length ≤ 2 then
    match Util.parseDigits t with
    | some n => if 1 ≤ n ∧ n ≤ 12 then some n else none
    | none => none
  else none

/-- Component match of `%d` (CPython pattern
`3[01]|[12]\d|0[1-9]|[1-9]| [1-9]`): one digit 1-9, two digits 01..31, or a
single space followed by one digit 1-9 (so `" 5"` is day 5). -/
def matchD (t : List Char) : Option ℕ :=
  match t with
  | [' ', c] => if '1' ≤ c ∧ c ≤ '9' then some (c.toNat - 48) else none
  | _ =>
      if t.length ≤ 2 then
        match Util.parseDigits t with
        | some n => if 1 ≤ n ∧ n ≤ 31 then some n else none
        | none => none
      else none

/-- Model of `datetime.strptime` for the three-field date formats above:
the separator is literal, the components match CPython's `_strptime`
patterns for `%Y`/`%m`/`%d` (no component contains a separator character,
so matching the regex against the whole string coincides with matching each
separated component), the whole string must be consumed, and the `datetime`
constructor then requires year ≥ 1 and a real calendar day. -/
def strptimeDate (fmt : DateFmt) (s : String) : Option (ℕ × ℕ × ℕ) :=
  match Util.splitOnChar fmt.sep s.toList with
  | [a, b, c] =>
      let triple : Option (ℕ × ℕ × ℕ) :=
        match fmt.ord with
        | .ymd => do pure (← matchY a, ← matchM b, ← matchD c)
        | .mdy => do pure (← matchY c, ← matchM a, ← matchD b)
        | .dmy => do pure (← matchY c, ← matchM b, ← matchD a)
      match triple with
      | some (y, m, d) =>
          if 1 ≤ y ∧ d ≤ daysInMonth y m then some (y, m, d) else none
      | none => none
  | _ => none

/-- `strftime("%Y-%m-%d")` as CPython delegates it to the platform: `%m`
and `%d` are zero-padded to two digits, `%Y` prints the year without
padding (year 999 renders as `"999"`, so `"0999-01-05"` normalizes to
`"999-01-05"`). -/
def fmtISODate (y m d : ℕ) : String :=
  toString y ++ "-" ++ Util.padZeros m 2 ++ "-" ++ Util.padZeros d 2

/-- The `for fmt in formats` loop body: first format that parses wins. -/
def tryDateFormats : List DateFmt → String → Option String
  | [], _ => none
  | f :: fs, v =>
      match strptimeDate f v with
      | some (y, m, d) => some (fmtISODate y m d)
      | none => tryDateFormats fs v

/-- `IngestionEngine._standardize_date` (v3.0): falsy input is `None`, else
strip and try the fixed ordered format list; `None` when no format matches. -/
def standardize_date (val : String) : Option String :=
  if val = "" then none
  else tryDateFormats dateFormats (Util.pyStrip val)

/-- `re.sub(r'[^\d.-]', '', ...)`: keep only digits, dots and minus signs. -/
def cleanChars (s : String) : String :=
  String.mk (s.toList.filter (fun c => c.isDigit || c == '.' || c == '-'))

/-- Model of Python's `float()` on strings made of digits, dots and minus
signs (all that survives `cleanChars`): an optional leading minus, then
digits with at most one dot and at least one digit overall. -/
def pyFloat? (s : String) : Option ℚ :=
  let (neg, body) : Bool × List Char :=
    match s.toList with
    | '-' :: rest => (true, rest)
    | l => (false, l)
  let sign : ℚ → ℚ := fun q => if neg then -q else q
  match Util.splitOnChar '.' body with
  | [i] =>
      match Util.parseDigits i with
      | some n => some (sign (n : ℚ))
      | none => none
  | [i, f] =>
      if i.all Char.isDigit ∧ f.all Char.isDigit ∧ (i ≠ [] ∨ f ≠ []) then
        some (sign ((Util.natOfDigits i : ℚ) +
                    (Util.natOfDigits f : ℚ) / (10 : ℚ) ^ f.length))
      else none
  | _ => none

/-- `IngestionEngine._clean_number`: falsy values are `0.0`, unparseable
cleaned strings fall back to `0.0`. -/
def clean_number (val : Option String) : ℚ :=
  match val with
  | none => 0
  | some v =>
      if v = "" then 0
      else
        match pyFloat? (cleanChars v) with
        | some q => q
        | none => 0

/-- `_match_header` key normalisation: `strip().lower().replace('_', '')`. -/
def normHeader (s : String) : String :=
  String.mk ((Util.pyLower (Util.pyStrip s)).toList.filter (fun c => c ≠ '_'))

/-- `IngestionEngine._match_header(row_keys, user_map_col)`: `None` for falsy
input, else the first CSV header whose normalisation equals the target's. -/
def match_header (keys : List String) (user_map_col : Option String) : Option String :=
  match user_map_col with
  | none => none
  | some u =>
      if u = "" then none
      else keys.find? (fun k => normHeader k == normHeader u)

/-- One row of the `universal_events` table as written by `_flush_events`. -/
structure EventRow where
  event_id : String
  event_type : String
  timestamp : String
  primary_target_id : String
  secondary_target_id : String
  value : ℚ
  meta : List (String × String)
  dedup_key : String
deriving DecidableEq, Repr

abbrev EventTable := List EventRow

/-- `IngestionEngine._generate_dedup_key`: the md5 hex digest of
`f"{ev_type}|{target}|{loc}|{time_str}"`, modelled as the injective identity
on that payload (collision-free abstraction); the `EVT_` event id keeps the
whole key rather than the first 12 hex characters for the same reason. -/
def generate_dedup_key (ev_type target loc time_str : String) : String :=
  ev_type ++ "|" ++ target ++ "|" ++ loc ++ "|" ++ time_str

/-- One `INSERT OR REPLACE INTO universal_events` statement: `event_id` is
the primary key, so a conflicting existing row is deleted and the new row
inserted. -/
def insertOrReplace (tbl : EventTable) (r : EventRow) : EventTable :=
  (tbl.filter (fun x => x.event_id ≠ r.event_id)) ++ [r]

/-- `IngestionEngine._flush_events`: `executemany` runs the statement once
per tuple, in order. -/
def flush_events (tbl : EventTable) (batch : List EventRow) : EventTable :=
  batch.foldl insertOrReplace tbl

/-- The event row stored under an id, if any (`event_id` is the table key). -/
def lookupEvent (tbl : EventTable) (id : String) : Option EventRow :=
  tbl.find? (fun r => r.event_id == id)

/-- Table well-formedness: at most one row per `event_id` (what the primary
key guarantees). -/
def uniqEvents (tbl : EventTable) : Prop :=
  (tbl.map EventRow.event_id).Nodup

/-- The `mapping` dict of an EVENT config, with the four keys
`_ingest_events` reads. -/
structure EventMapping where
  target_id_col : Option String := none
  date_col : Option String := none
  value_col : Option String := none
  location_id_col : Option String := none
deriving Repr

/-- The resolved `headers` dict of `_ingest_events`. -/
structure Headers where
  target : Option String
  date : Option String
  val : Option String
  loc : Option String
deriving DecidableEq, Repr

def resolveHeaders (keys : List String) (m : EventMapping) : Headers :=
  ⟨match_header keys m.target_id_col, match_header keys m.date_col,
   match_header keys m.value_col, match_header keys m.location_id_col⟩

/-- `headers.values()` as consulted by the meta-column filter. -/
def headerVals (h : Headers) : List (Option String) :=
  [h.target, h.date, h.val, h.loc]

/-- Outcome of one iteration of the `_ingest_events` row loop. -/
inductive RowOutcome
  | tuple (r : EventRow)
  | skip
  | err (msg : String)
deriving DecidableEq, Repr

/-- Body of the `try` block of the `_ingest_events` loop for one row:
extract target and date (a missing dict key raises `KeyError`, caught as a
row error), drop the row (`continue`) when the target is empty or the date
parses under no format, else build the insert tuple. -/
def processEventRow (event_type : String) (h : Headers) (row : Row) : RowOutcome :=
  match h.target, h.date with
  | some tk, some dk =>
      match rowGet row tk with
      | none => .err ("'" ++ tk ++ "'")
      | some tv =>
          let target_id := Util.pyStrip tv
          match rowGet row dk with
          | none => .err ("'" ++ dk ++ "'")
          | some dvRaw =>
              match standardize_date dvRaw with
              | none => .skip
              | some date_str =>
                  if target_id = "" then .skip
                  else
                    let val : ℚ :=
                      match h.val with
                      | some vk =>
                          match rowGet row vk with
                          | some s => if s ≠ "" then clean_number (some s) else 0
                          | none => 0
                      | none => 0
                    let loc_id : String :=
                      match h.loc with
                      | some lk =>
                          match rowGet row lk with
                          | some s => if s ≠ "" then Util.pyStrip s else "GLOBAL"
                          | none => "GLOBAL"
                      | none => "GLOBAL"
                    let meta := row.filter (fun kv => some kv.fst ∉ headerVals h)
                    let dkey := generate_dedup_key event_type target_id loc_id date_str
                    .tuple ⟨"EVT_" ++ dkey, event_type, date_str, target_id,
                            loc_id, val, meta, dkey⟩
  | _, _ => .err "unresolved headers"

/-- `{"status", "count", "errors"}` of an `_ingest_events` call. -/
structure IngestResult where
  ok : Bool
  count : ℕ
  errors : List String
deriving DecidableEq, Repr

/-- Accumulator of the `_ingest_events` loop. -/
structure LoopState where
  batch : List EventRow
  errors : List String
  processed : ℕ
  table : EventTable
deriving Repr

/-- The row loop of `_ingest_events`, with the 2000-row batch flushes and
the five-message error cap. -/
def ingestLoop (event_type : String) (h : Headers) :
    List Row → LoopState → LoopState
  | [], s => s
  | r :: rest, s =>
      match processEventRow event_type h r with
      | .skip => ingestLoop event_type h rest s
      | .err m =>
          let errors :=
            if s.errors.length < 5 then
              s.errors ++ ["Row " ++ toString s.processed ++ ": " ++ m]
            else s.errors
          ingestLoop event_type h rest { s with errors }
      | .tuple t =>
          let batch := s.batch ++ [t]
          let processed := s.processed + 1
          if batch.length ≥ 2000 then
            ingestLoop event_type h rest
              { s with batch := [], processed, table := flush_events s.table batch }
          else
            ingestLoop event_type h rest { s with batch, processed }

/-- `IngestionEngine._ingest_events(content, config)` from the reader's row
stream onward: resolve headers from the first row, abort with a structured
error when target or date is unmapped, run the row loop, flush the final
batch when nonempty. -/
def ingest_events (tbl : EventTable) (rows : List Row) (m : EventMapping)
    (entity_name : String) : IngestResult × EventTable :=
  match rows with
  | [] => (⟨true, 0, []⟩, tbl)
  | r0 :: _ =>
      let event_type := Util.pyUpper entity_name
      let h := resolveHeaders (rowKeys r0) m
      if h.target = none ∨ h.date = none then (⟨false, 0, []⟩, tbl)
      else
        let s := ingestLoop event_type h rows ⟨[], [], 0, tbl⟩
        let table := if s.batch ≠ [] then flush_events s.table s.batch else s.table
        (⟨true, s.processed, s.errors⟩, table)

/-- One row of the `universal_objects` table as written by `_ingest_objects`. -/
structure ObjRow where
  obj_id : String
  obj_type : String
  name : String
  attributes : List (String × String)
deriving DecidableEq, Repr

/-- `INSERT OR REPLACE INTO universal_objects` (`obj_id` primary key). -/
def insertOrReplaceObj (tbl : List ObjRow) (r : ObjRow) : List ObjRow :=
  (tbl.filter (fun x => x.obj_id ≠ r.obj_id)) ++ [r]

/-- The mapping dict of an OBJECT config (`'ID'` and `'Name'` keys). -/
structure ObjMapping where
  id_col : Option String := none
  name_col : Option String := none
deriving Repr

/-- Body of the `_ingest_objects` loop for one row: skip empty ids, pack all
other columns into attributes, use the mapped name when present and truthy,
else the id.  A missing dict key would raise out of the whole call
(`_ingest_objects` has no per-row `try`), modelled by the error side. -/
def processObjRow (obj_type key_col : String) (name_mapping : Option String)
    (row : Row) : Except String (Option ObjRow) :=
  match rowGet row key_col with
  | none => .error ("KeyError: '" ++ key_col ++ "'")
  | some v =>
      let obj_id := Util.pyStrip v
      if obj_id = "" then .ok none
      else
        let attributes := (row.filter (fun kv => kv.fst ≠ key_col)).map
          (fun kv => (kv.fst, Util.pyStrip kv.snd))
        let name_col := match_header (rowKeys row) name_mapping
        let name :=
          match name_col with
          | some nc =>
              match rowGet row nc with
              | some nv => if nv ≠ "" then Util.pyStrip nv else obj_id
              | none => obj_id
          | none => obj_id
        .ok (some ⟨obj_id, obj_type, name, attributes⟩)

/-- The row loop of `_ingest_objects` (2000-row batches; counting). -/
def objLoop (obj_type key_col : String) (name_mapping : Option String) :
    List Row → List ObjRow × ℕ × List ObjRow → Except String (List ObjRow × ℕ × List ObjRow)
  | [], s => .ok s
  | r :: rest, (batch, n, tbl) =>
      match processObjRow obj_type key_col name_mapping r with
      | .error e => .error e
      | .ok none => objLoop obj_type key_col name_mapping rest (batch, n, tbl)
      | .ok (some o) =>
          let batch := batch ++ [o]
          if batch.length ≥ 2000 then
            objLoop obj_type key_col name_mapping rest
              ([], n + 1, batch.foldl insertOrReplaceObj tbl)
          else
            objLoop obj_type key_col name_mapping rest (batch, n + 1, tbl)

/-- `IngestionEngine._ingest_objects(content, config)` from the reader's row
stream onward: resolve the primary-id column from the first row (structured
error when absent), then loop and flush.  No date is read anywhere. -/
def ingest_objects (tbl : List ObjRow) (rows : List Row) (m : ObjMapping)
    (entity_name : String) : Except String ((Bool × ℕ) × List ObjRow) :=
  match rows with
  | [] => .ok ((true, 0), tbl)
  | r0 :: _ =>
      let obj_type := Util.pyUpper entity_name
      match match_header (rowKeys r0) m.id_col with
      | none => .ok ((false, 0), tbl)
      | some key_col =>
          match objLoop obj_type key_col m.name_col rows ([], 0, tbl) with
          | .error e => .error e
          | .ok (batch, n, tbl1) =>
              .ok ((true, n), if batch ≠ [] then batch.foldl insertOrReplaceObj tbl1 else tbl1)

end Ingest

namespace BIngest

/-! Embedding of `backend/core/ingestion.py` (the v3.1 engine), EVENT branch
of `process_generic_stream`, which is the path every event upload takes
(`apply_mapping` and `process_metric_stream` both construct EVENT configs). -/

/-- Model of `pandas.to_datetime` restricted to the ISO `YYYY-MM-DD` shape —
the only shape the verified statements evaluate it on.  Inputs outside this
shape denote a pandas parse error (`"not-a-date"` raises in pandas). -/
def pdToDatetime (s : String) : Option (ℕ × ℕ × ℕ) :=
  Ingest.strptimeDate ⟨.ymd, '-'⟩ (Util.pyStrip s)

/-- `IngestionEngine._standardize_date` (v3.1): falsy input is `None`; else
try `pd.to_datetime(val).strftime("%Y-%m-%d")` and on any parse error fall
back to `str(val)` — the raw string, not `None`. -/
def standardize_date (val : Option String) : Option String :=
  match val with
  | none => none
  | some v =>
      if v = "" then none
      else
        match pdToDatetime v with
        | some (y, m, d) => some (Ingest.fmtISODate y m d)
        | none => some v

/-- One row of `universal_events` as written by the v3.1 bulk insert
(`event_id, primary_target_id, event_type, value, timestamp, meta`). -/
structure BEventRow where
  event_id : String
  primary_target_id : String
  event_type : String
  value : ℚ
  timestamp : String
  meta : String
deriving DecidableEq, Repr

/-- One `INSERT ... ON CONFLICT(event_id) DO NOTHING` statement: a row whose
`event_id` already exists is silently dropped. -/
def insertOrIgnore (tbl : List BEventRow) (r : BEventRow) : List BEventRow :=
  if tbl.any (fun x => x.event_id == r.event_id) then tbl else tbl ++ [r]

/-- `mapped_row[target_field] = row[source_col]` for one mapping entry
(dict update: an existing binding for the key is replaced). -/
def dictSet (r : Ingest.Row) (k v : String) : Ingest.Row :=
  (r.filter (fun p => p.fst ≠ k)) ++ [(k, v)]

/-- Step 1 of the v3.1 row loop: build `mapped_row` from the
`{target_field: source_column}` mapping, keeping only columns present. -/
def mappedRow (mapping : List (String × String)) (row : Ingest.Row) : Ingest.Row :=
  mapping.foldl
    (fun acc p =>
      match Ingest.rowGet row p.snd with
      | some v => dictSet acc p.fst v
      | none => acc)
    []

/-- Step 3 of the v3.1 row loop (EVENT branch): extract target/value/
timestamp from the mapped row, fall back to the wall clock (`now`, passed as
a parameter) for a falsy timestamp, and build the insert tuple keyed by the
dedup hash of `(entity_name, target, 'GLOBAL', ts)`.  Rows with a falsy
target id produce nothing. -/
def eventTuple (entity_name now : String) (mapping : List (String × String))
    (row : Ingest.Row) : Option BEventRow :=
  let mr := mappedRow mapping row
  let val := Ingest.clean_number (Ingest.rowGet mr "value")
  let ts :=
    match standardize_date (Ingest.rowGet mr "timestamp") with
    | some t => if t ≠ "" then t else now
    | none => now
  match Ingest.rowGet mr "primary_target_id" with
  | some t =>
      if t ≠ "" then
        some ⟨Ingest.generate_dedup_key entity_name t "GLOBAL" ts, t,
              entity_name, val, ts,
              "\x7b\"source\": \"ingestion_engine\"\x7d"⟩
      else none
  | none => none

/-- `IngestionEngine.process_generic_stream(data, config)`, EVENT branch:
map every row to its tuple, then bulk-write the batch with
`ON CONFLICT(event_id) DO NOTHING` (`executemany` runs the statements in
order).  Returns the `processed` count (the full input length) and the
resulting table. -/
def process_generic_stream (tbl : List BEventRow) (data : List Ingest.Row)
    (mapping : List (String × String)) (entity_name now : String) :
    ℕ × List BEventRow :=
  let events_batch := data.filterMap (eventTuple entity_name now mapping)
  (data.length, events_batch.foldl insertOrIgnore tbl)

/-- The mapping `process_metric_stream` builds from its legacy defaults:
`primary_target_id ← SKU`, `timestamp ← Date`, `value ← Qty`. -/
def metricMapping : List (String × String) :=
  [("primary_target_id", "SKU"), ("timestamp", "Date"), ("value", "Qty")]

end BIngest

/-! ## Theorems -/

/-! ### Agency lemmas -/

/-- An execution step changes the executed-hash set only by appending the
package's own hash (and does so exactly when the package executes). -/
theorem execStep_hashes (st : Agency.AuctobotState) (p : Agency.DecisionPackage) :
    (Agency.execStep st p).1.executed_hashes = st.executed_hashes ∨
    (Agency.execStep st p).1.executed_hashes = st.executed_hashes ++ [p.hash] := by
  unfold Agency.execStep
  by_cases h1 : p.hash ∈ st.executed_hashes
  · simp [h1]
  · by_cases h2 : p.action = "REPLENISH"
    · simp [h1, h2]
    · by_cases h3 : p.action = "PRICE_CHANGE" <;> simp [h1, h2, h3]

/-- The updated package returned by an execution step keeps its hash. -/
theorem execStep_out_hash (st : Agency.AuctobotState) (p : Agency.DecisionPackage) :
    (Agency.execStep st p).2.1.hash = p.hash := by
  unfold Agency.execStep
  by_cases h1 : p.hash ∈ st.executed_hashes
  · simp [h1]
  · by_cases h2 : p.action = "REPLENISH"
    · simp [h1, h2]
    · by_cases h3 : p.action = "PRICE_CHANGE" <;> simp [h1, h2, h3]

/-- A package whose hash is already in the executed set is skipped whole. -/
theorem execStep_replay_skipped (st : Agency.AuctobotState)
    (p : Agency.DecisionPackage) (hm : p.hash ∈ st.executed_hashes) :
    Agency.execStep st p =
      (st, { p with status := .skipped }, .skipped p.id "Duplicate hash") := by
  unfold Agency.execStep
  simp [hm]

/-- A not-yet-executed package with an unknown action fails: history gains
the failed package, the state is otherwise untouched. -/
theorem execStep_unknown_failed (st : Agency.AuctobotState)
    (p : Agency.DecisionPackage) (hm : p.hash ∉ st.executed_hashes)
    (ha1 : p.action ≠ "REPLENISH") (ha2 : p.action ≠ "PRICE_CHANGE") :
    Agency.execStep st p =
      ({ st with history := st.history ++ [{ p with status := .failed }] },
       { p with status := .failed },
       .failed p.id ("Unknown action: " ++ p.action)) := by
  unfold Agency.execStep
  simp [hm, ha1, ha2]

/-- Membership in the executed-hash set survives an execution step. -/
theorem execStep_hashes_mono (st : Agency.AuctobotState)
    (p : Agency.DecisionPackage) (h : String) (hm : h ∈ st.executed_hashes) :
    h ∈ (Agency.execStep st p).1.executed_hashes := by
  rcases execStep_hashes st p with he | he <;> rw [he]
  · exact hm
  · exact List.mem_append_left _ hm

/-- Membership in the executed-hash set survives the whole batch loop. -/
theorem execLoop_hashes_mono (pkgs : List Agency.DecisionPackage)
    (st : Agency.AuctobotState) (h : String) (hm : h ∈ st.executed_hashes) :
    h ∈ (Agency.execLoop st pkgs).1.executed_hashes := by
  induction pkgs generalizing st with
  | nil => simpa [Agency.execLoop] using hm
  | cons p rest ih => exact ih _ (execStep_hashes_mono st p h hm)

/-- A hash carried by no package of the batch and absent from the executed
set beforehand is still absent afterwards. -/
theorem execLoop_hashes_not_mem (pkgs : List Agency.DecisionPackage)
    (st : Agency.AuctobotState) (h : String) (h1 : h ∉ st.executed_hashes)
    (h2 : ∀ p ∈ pkgs, p.hash ≠ h) :
    h ∉ (Agency.execLoop st pkgs).1.executed_hashes := by
  induction pkgs generalizing st with
  | nil => simpa [Agency.execLoop] using h1
  | cons p rest ih =>
      refine ih _ ?_ (fun q hq => h2 q (List.mem_cons_of_mem p hq))
      rcases execStep_hashes st p with he | he <;> rw [he]
      · exact h1
      · intro hmem
        rcases List.mem_append.mp hmem with hl | hr
        · exact h1 hl
        · exact h2 p (List.mem_cons_self p rest) (List.mem_singleton.mp hr).symm

/-- The batch loop's history only grows. -/
theorem execLoop_history_mono (pkgs : List Agency.DecisionPackage)
    (st : Agency.AuctobotState) (p : Agency.DecisionPackage)
    (hm : p ∈ st.history) : p ∈ (Agency.execLoop st pkgs).1.history := by
  induction pkgs generalizing st with
  | nil => simpa [Agency.execLoop] using hm
  | cons q rest ih =>
      refine ih _ ?_
      unfold Agency.execStep
      by_cases h1 : q.hash ∈ st.executed_hashes
      · simpa [h1] using hm
      · by_cases h2 : q.action = "REPLENISH"
        · simp [h1, h2]
          exact Or.inl hm
        · by_cases h3 : q.action = "PRICE_CHANGE" <;>
            simp [h1, h2, h3] <;> exact Or.inl hm

/-- Each input package yields exactly one updated package and one results
entry, in order. -/
theorem execLoop_lengths (pkgs : List Agency.DecisionPackage)
    (st : Agency.AuctobotState) :
    (Agency.execLoop st pkgs).2.1.length = pkgs.length ∧
    (Agency.execLoop st pkgs).2.2.length = pkgs.length := by
  induction pkgs generalizing st with
  | nil => simp [Agency.execLoop]
  | cons p rest ih =>
      simp only [Agency.execLoop, List.length_cons]
      exact ⟨by rw [(ih _).1], by rw [(ih _).2]⟩

/-- Every updated package whose hash was already executed before the batch
comes out SKIPPED. -/
theorem execLoop_executed_skipped (pkgs : List Agency.DecisionPackage)
    (st : Agency.AuctobotState) (h : String) (hm : h ∈ st.executed_hashes) :
    ∀ p ∈ (Agency.execLoop st pkgs).2.1, p.hash = h → p.status = .skipped := by
  induction pkgs generalizing st with
  | nil => simp [Agency.execLoop]
  | cons q rest ih =>
      intro p hp hph
      simp only [Agency.execLoop, List.mem_cons] at hp
      rcases hp with rfl | hp
      · have hqh : q.hash = h := by rw [← execStep_out_hash st q]; exact hph
        have : q.hash ∈ st.executed_hashes := by rw [hqh]; exact hm
        rw [execStep_replay_skipped st q this]
      · exact ih _ (execStep_hashes_mono st q h hm) p hp hph

/-! ### Ingestion lemmas -/

/-- Filtering by a predicate implied by the search predicate does not change
the result of `find?`. -/
theorem find?_filter_of_imp {α : Type} (l : List α) (p q : α → Bool)
    (himp : ∀ a, p a = true → q a = true) :
    (l.filter q).find? p = l.find? p := by
  induction l with
  | nil => rfl
  | cons x t ih =>
      by_cases hq : q x = true
      · rw [List.filter_cons, if_pos hq, List.find?_cons, List.find?_cons]
        cases hp : p x
        · exact ih
        · rfl
      · have hp : p x = false := by
          cases hpx : p x
          · rfl
          · exact absurd (himp x hpx) hq
        rw [List.filter_cons, if_neg hq, ih, List.find?_cons, hp]

/-- `INSERT OR REPLACE` semantics at the lookup level: the new row shadows
any previous row with its id and leaves every other id untouched. -/
theorem lookupEvent_insertOrReplace (tbl : Ingest.EventTable)
    (r : Ingest.EventRow) (id : String) :
    Ingest.lookupEvent (Ingest.insertOrReplace tbl r) id =
      if r.event_id = id then some r else Ingest.lookupEvent tbl id := by
  unfold Ingest.lookupEvent Ingest.insertOrReplace
  rw [List.find?_append]
  by_cases h : r.event_id = id
  · rw [if_pos h]
    have h1 : (tbl.filter (fun x => x.event_id ≠ r.event_id)).find?
        (fun x => x.event_id == id) = none := by
      refine List.find?_eq_none.mpr ?_
      intro x hx
      have hq := (List.mem_filter.mp hx).2
      simp only [ne_eq, decide_not, Bool.not_eq_eq_eq_not, Bool.not_true,
        decide_eq_false_iff_not] at hq
      simp only [beq_iff_eq]
      rw [← h]
      exact hq
    rw [h1]
    simp [h]
  · rw [if_neg h]
    have h2 : ([r].find? (fun x => x.event_id == id)) = none :=
      List.find?_eq_none.mpr (by
        intro x hx
        rw [List.mem_singleton.mp hx]
        simp [h])
    rw [h2]
    have h3 : (tbl.filter (fun x => x.event_id ≠ r.event_id)).find?
        (fun x => x.event_id == id) = tbl.find? (fun x => x.event_id == id) :=
      find?_filter_of_imp tbl _ _ (by
        intro a hpa
        have hpa2 : a.event_id = id := by simpa using hpa
        simp only [decide_eq_true_eq]
        rw [hpa2]
        exact fun hh => h hh.symm)
    rw [h3]
    cases tbl.find? (fun x => x.event_id == id) <;> rfl

/-- `_flush_events` resolves per event id with last-write-wins: the final
row under an id is the last batch tuple carrying it, else the pre-existing
row. -/
theorem lookupEvent_flush (batch : List Ingest.EventRow)
    (tbl : Ingest.EventTable) (id : String) :
    Ingest.lookupEvent (Ingest.flush_events tbl batch) id =
      (batch.reverse.find? (fun r => r.event_id == id)).or
        (Ingest.lookupEvent tbl id) := by
  induction batch generalizing tbl with
  | nil => simp [Ingest.flush_events]
  | cons b rest ih =>
      show Ingest.lookupEvent (Ingest.flush_events (Ingest.insertOrReplace tbl b) rest) id = _
      rw [ih, lookupEvent_insertOrReplace, List.reverse_cons, List.find?_append]
      cases hfind : rest.reverse.find? (fun r => r.event_id == id) with
      | some r => rfl
      | none =>
          by_cases hb : b.event_id = id
          · simp [List.find?, hb, Option.or]
          · have hbeq : (b.event_id == id) = false := by simpa using hb
            simp [List.find?, hbeq, Option.or]
            exact fun hh => absurd hh hb

/-- `INSERT OR REPLACE` preserves event-id uniqueness. -/
theorem uniqEvents_insertOrReplace (tbl : Ingest.EventTable)
    (r : Ingest.EventRow) (h : Ingest.uniqEvents tbl) :
    Ingest.uniqEvents (Ingest.insertOrReplace tbl r) := by
  unfold Ingest.uniqEvents Ingest.insertOrReplace at *
  rw [List.map_append]
  refine List.Nodup.append ?_ (by simp) ?_
  · exact ((List.filter_sublist tbl).map Ingest.EventRow.event_id).nodup h
  · intro a ha hb
    simp only [List.map_cons, List.map_nil, List.mem_singleton] at hb
    rcases List.mem_map.mp ha with ⟨x, hx, hxa⟩
    have hq := (List.mem_filter.mp hx).2
    simp only [ne_eq, decide_not, Bool.not_eq_eq_eq_not, Bool.not_true,
      decide_eq_false_iff_not] at hq
    exact hq (hxa.trans hb)

/-- Flushing any batch preserves event-id uniqueness. -/
theorem uniqEvents_flush (batch : List Ingest.EventRow)
    (tbl : Ingest.EventTable) (h : Ingest.uniqEvents tbl) :
    Ingest.uniqEvents (Ingest.flush_events tbl batch) := by
  induction batch generalizing tbl with
  | nil => exact h
  | cons b rest ih => exact ih _ (uniqEvents_insertOrReplace tbl b h)

/-- The `_ingest_events` row loop preserves event-id uniqueness of the
stored table. -/
theorem uniqEvents_ingestLoop (et : String) (h : Ingest.Headers)
    (rows : List Ingest.Row) (s : Ingest.LoopState)
    (hu : Ingest.uniqEvents s.table) :
    Ingest.uniqEvents (Ingest.ingestLoop et h rows s).table := by
  induction rows generalizing s with
  | nil => exact hu
  | cons r rest ih =>
      unfold Ingest.ingestLoop
      split
      · exact ih s hu
      · exact ih _ hu
      · dsimp only
        split
        · exact ih _ (uniqEvents_flush _ _ hu)
        · exact ih _ hu

/-- `_ingest_events` preserves event-id uniqueness end to end: re-ingestion
can never produce two rows with the same dedup-derived id. -/
theorem uniqEvents_ingest_events (tbl : Ingest.EventTable)
    (rows : List Ingest.Row) (m : Ingest.EventMapping) (en : String)
    (h : Ingest.uniqEvents tbl) :
    Ingest.uniqEvents (Ingest.ingest_events tbl rows m en).2 := by
  cases rows with
  | nil => exact h
  | cons r0 rest =>
      unfold Ingest.ingest_events
      dsimp only
      split
      · exact h
      · split
        · exact uniqEvents_flush _ _ (uniqEvents_ingestLoop _ _ _ _ h)
        · exact uniqEvents_ingestLoop _ _ _ _ h

/-- The format loop returns the reformat of the first format that parses. -/
theorem tryDateFormats_first (fmts : List Ingest.DateFmt) (v : String) :
    ∀ (i : ℕ) (hi : i < fmts.length) (y m d : ℕ),
      Ingest.strptimeDate (fmts.get ⟨i, hi⟩) v = some (y, m, d) →
      (∀ (j : ℕ) (hj : j < fmts.length), j < i →
         Ingest.strptimeDate (fmts.get ⟨j, hj⟩) v = none) →
      Ingest.tryDateFormats fmts v = some (Ingest.fmtISODate y m d) := by
  induction fmts with
  | nil => intro i hi; cases hi
  | cons f fs ih =>
      intro i hi y m d hp hearlier
      cases i with
      | zero =>
          have hp0 : Ingest.strptimeDate f v = some (y, m, d) := hp
          unfold Ingest.tryDateFormats
          rw [hp0]
      | succ k =>
          have h0 : Ingest.strptimeDate f v = none :=
            hearlier 0 (by simp) (Nat.succ_pos k)
          unfold Ingest.tryDateFormats
          rw [h0]
          exact ih k (by simpa using hi) y m d hp
            (fun j hj hjk => hearlier (j + 1) (by simpa using hj) (by omega))

/-- The format loop returns `none` when no format parses. -/
theorem tryDateFormats_none (fmts : List Ingest.DateFmt) (v : String)
    (h : ∀ f ∈ fmts, Ingest.strptimeDate f v = none) :
    Ingest.tryDateFormats fmts v = none := by
  induction fmts with
  | nil => rfl
  | cons f fs ih =>
      unfold Ingest.tryDateFormats
      rw [h f (List.mem_cons_self f fs)]
      exact ih (fun g hg => h g (List.mem_cons_of_mem f hg))

/-- The event mapping `process_metric_stream` builds from its legacy
defaults (`Target_ID ← SKU`, `Date ← Date`, `Value ← Qty`,
`Location_ID ← Store`). -/
def C1mapping : Ingest.EventMapping :=
  { target_id_col := some "SKU", date_col := some "Date",
    value_col := some "Qty", location_id_col := some "Store" }

/-- `SKU=ABC123, Date=2024-01-05, Qty=10` from the spec's example. -/
def C1row10 : Ingest.Row := [("SKU", "ABC123"), ("Date", "2024-01-05"), ("Qty", "10")]

/-- `SKU=ABC123, Date=2024-01-05, Qty=12` from the spec's example. -/
def C1row12 : Ingest.Row := [("SKU", "ABC123"), ("Date", "2024-01-05"), ("Qty", "12")]

/-- The single surviving event row after the spec's example ingestion. -/
def C1expected : Ingest.EventRow :=
  ⟨"EVT_SALES_QTY|ABC123|GLOBAL|2024-01-05", "SALES_QTY", "2024-01-05",
   "ABC123", "GLOBAL", 12, [], "SALES_QTY|ABC123|GLOBAL|2024-01-05"⟩

/-- C1 (amended): in the auctorian v3.0 engine (`INSERT OR REPLACE` keyed on
the dedup-derived event id) re-ingesting the same (type, target, location,
normalized date) yields exactly one row with last-write-wins — in particular
the spec's Qty=10-then-12 example leaves a single SALES_QTY event with value
12, whether the rows arrive in one file or in two successive ingestions —
and ingestion always preserves at-most-one-row-per-event-id; the backend
v3.1 engine instead keeps the first value (see the counterexample). -/
theorem C1_idempotent_ingestion :
    ((Ingest.ingest_events [] [C1row10, C1row12] C1mapping "SALES_QTY").2 =
       [C1expected]) ∧
    ((Ingest.ingest_events (Ingest.ingest_events [] [C1row10] C1mapping
        "SALES_QTY").2 [C1row12] C1mapping "SALES_QTY").2 = [C1expected]) ∧
    (∀ (batch : List Ingest.EventRow) (tbl : Ingest.EventTable) (id : String),
       Ingest.lookupEvent (Ingest.flush_events tbl batch) id =
         (batch.reverse.find? (fun r => r.event_id == id)).or
           (Ingest.lookupEvent tbl id)) ∧
    (∀ (tbl : Ingest.EventTable) (rows : List Ingest.Row)
       (m : Ingest.EventMapping) (en : String),
       Ingest.uniqEvents tbl →
       Ingest.uniqEvents (Ingest.ingest_events tbl rows m en).2) :=
  ⟨by decide, by decide, lookupEvent_flush, uniqEvents_ingest_events⟩

/-- C1 (counterexample): the backend v3.1 engine bulk-writes events with
`ON CONFLICT(event_id) DO NOTHING`, so ingesting Qty=10 then Qty=12 for the
same SKU and date leaves exactly one SALES_QTY event whose value is 10 —
the first write wins there, not the last as the claim states for every
event ingestion. -/
theorem C1_counterexample :
    ((BIngest.process_generic_stream [] [C1row10, C1row12] BIngest.metricMapping
        "SALES_QTY" "NOW").2.map BIngest.BEventRow.value = [10]) ∧
    ¬ ((BIngest.process_generic_stream [] [C1row10, C1row12] BIngest.metricMapping
        "SALES_QTY" "NOW").2.map BIngest.BEventRow.value = [12]) ∧
    ((BIngest.process_generic_stream [] [C1row10, C1row12] BIngest.metricMapping
        "SALES_QTY" "NOW").2.length = 1) :=
  ⟨by decide, by decide, by decide⟩

/-- Witness for C1 (amended) instantiating the uniqueness clause on the
empty table and the flush clause at the example batch. -/
theorem C1_idempotent_ingestion_witness :
    Ingest.uniqEvents ([] : Ingest.EventTable) ∧
    Ingest.uniqEvents
      (Ingest.ingest_events [] [C1row10, C1row12] C1mapping "SALES_QTY").2 ∧
    Ingest.lookupEvent (Ingest.flush_events [] [C1expected])
        "EVT_SALES_QTY|ABC123|GLOBAL|2024-01-05" =
      ([C1expected].reverse.find? (fun r => r.event_id ==
          "EVT_SALES_QTY|ABC123|GLOBAL|2024-01-05")).or
        (Ingest.lookupEvent [] "EVT_SALES_QTY|ABC123|GLOBAL|2024-01-05") :=
  ⟨by unfold Ingest.uniqEvents; decide,
   C1_idempotent_ingestion.2.2.2 [] [C1row10, C1row12] C1mapping "SALES_QTY"
     (by unfold Ingest.uniqEvents; decide),
   C1_idempotent_ingestion.2.2.1 [C1expected] []
     "EVT_SALES_QTY|ABC123|GLOBAL|2024-01-05"⟩

/-- C6 (amended): the auctorian v3.0 engine's date normalization tries the
fixed ordered format list with first-match-wins, where the components match
CPython's `strptime` exactly (`%Y` needs four digits, so `"999-01-05"` is
dropped; `%d` also accepts a space-padded single digit, so `"2024-01- 5"`
parses; `strftime` does not zero-pad the year, so `"0999-01-05"` normalizes
to `"999-01-05"`); event rows whose date parses under no format are dropped
(they produce no tuple and leave the loop state untouched); object
ingestion reads no date at all, so an unparseable date column is stored
verbatim as an attribute.  The backend v3.1 engine behaves differently (see
the counterexample). -/
theorem C6_date_normalization :
    (∀ (v : String) (i : ℕ) (hi : i < Ingest.dateFormats.length) (y m d : ℕ),
       v ≠ "" →
       Ingest.strptimeDate (Ingest.dateFormats.get ⟨i, hi⟩) (Util.pyStrip v) =
         some (y, m, d) →
       (∀ (j : ℕ) (hj : j < Ingest.dateFormats.length), j < i →
          Ingest.strptimeDate (Ingest.dateFormats.get ⟨j, hj⟩) (Util.pyStrip v) =
            none) →
       Ingest.standardize_date v = some (Ingest.fmtISODate y m d)) ∧
    (∀ v : String,
       (∀ f ∈ Ingest.dateFormats, Ingest.strptimeDate f (Util.pyStrip v) = none) →
       Ingest.standardize_date v = none) ∧
    (∀ (et : String) (h : Ingest.Headers) (row : Ingest.Row) (tk tv dk dv : String),
       h.target = some tk → Ingest.rowGet row tk = some tv →
       h.date = some dk → Ingest.rowGet row dk = some dv →
       Ingest.standardize_date dv = none →
       Ingest.processEventRow et h row = .skip) ∧
    (∀ (et : String) (h : Ingest.Headers) (r : Ingest.Row)
       (rest : List Ingest.Row) (s : Ingest.LoopState),
       Ingest.processEventRow et h r = .skip →
       Ingest.ingestLoop et h (r :: rest) s = Ingest.ingestLoop et h rest s) ∧
    (Ingest.standardize_date "999-01-05" = none ∧
     Ingest.standardize_date "2024-01- 5" = some "2024-01-05" ∧
     Ingest.standardize_date "0999-01-05" = some "999-01-05") ∧
    (Ingest.standardize_date "not-a-date" = none ∧
     Ingest.ingest_objects [] [[("ID", "P1"), ("Date", "not-a-date")]]
        ⟨some "ID", none⟩ "products" =
       .ok ((true, 1), [⟨"P1", "PRODUCTS", "P1", [("Date", "not-a-date")]⟩])) := by
  refine ⟨?_, ?_, ?_, ?_, by decide, by decide, by decide⟩
  · intro v i hi y m d hv hp hearlier
    unfold Ingest.standardize_date
    rw [if_neg hv]
    exact tryDateFormats_first Ingest.dateFormats (Util.pyStrip v) i hi y m d hp hearlier
  · intro v hall
    unfold Ingest.standardize_date
    by_cases hv : v = ""
    · rw [if_pos hv]
    · rw [if_neg hv]
      exact tryDateFormats_none Ingest.dateFormats (Util.pyStrip v) hall
  · intro et h row tk tv dk dv ht hrt hd hrd hsd
    unfold Ingest.processEventRow
    rw [ht, hd]
    dsimp only
    rw [hrt]
    dsimp only
    rw [hrd]
    dsimp only
    rw [hsd]
  · intro et h r rest s hskip
    conv_lhs => unfold Ingest.ingestLoop
    rw [hskip]

/-- C6 (counterexample): the backend v3.1 engine's `_standardize_date` does
not try the fixed format list — it calls pandas and on a parse error falls
back to the raw string as the timestamp — so an event row whose date value
matches none of the formats is NOT dropped: one event is written with the
unparsed date as its timestamp. -/
theorem C6_counterexample :
    Ingest.standardize_date "not-a-date" = none ∧
    ((BIngest.process_generic_stream []
        [[("SKU", "ABC123"), ("Date", "not-a-date"), ("Qty", "10")]]
        BIngest.metricMapping "SALES_QTY" "NOW").2.length = 1) ∧
    ((BIngest.process_generic_stream []
        [[("SKU", "ABC123"), ("Date", "not-a-date"), ("Qty", "10")]]
        BIngest.metricMapping "SALES_QTY" "NOW").2.map
       BIngest.BEventRow.timestamp = ["not-a-date"]) :=
  ⟨by decide, by decide, by decide⟩

/-- Witness for C6 (amended): first-match-wins at the ISO example date,
none-match at "not-a-date", and a dropped event row with that date. -/
theorem C6_date_normalization_witness :
    Ingest.standardize_date "2024-01-05" = some (Ingest.fmtISODate 2024 1 5) ∧
    Ingest.standardize_date "not-a-date" = none ∧
    Ingest.processEventRow "SALES_QTY"
        ⟨some "SKU", some "Date", some "Qty", none⟩
        [("SKU", "ABC123"), ("Date", "not-a-date"), ("Qty", "10")] = .skip ∧
    Ingest.ingestLoop "SALES_QTY" ⟨some "SKU", some "Date", some "Qty", none⟩
        [[("SKU", "ABC123"), ("Date", "not-a-date"), ("Qty", "10")]]
        ⟨[], [], 0, []⟩ =
      Ingest.ingestLoop "SALES_QTY" ⟨some "SKU", some "Date", some "Qty", none⟩
        [] ⟨[], [], 0, []⟩ :=
  ⟨C6_date_normalization.1 "2024-01-05" 0 (by decide) 2024 1 5 (by decide)
     (by decide) (fun j hj hj0 => absurd hj0 (Nat.not_lt_zero j)),
   C6_date_normalization.2.1 "not-a-date" (by decide),
   C6_date_normalization.2.2.1 "SALES_QTY"
     ⟨some "SKU", some "Date", some "Qty", none⟩
     [("SKU", "ABC123"), ("Date", "not-a-date"), ("Qty", "10")]
     "SKU" "ABC123" "Date" "not-a-date" (by decide) (by decide) (by decide)
     (by decide) (by decide),
   C6_date_normalization.2.2.2.1 "SALES_QTY"
     ⟨some "SKU", some "Date", some "Qty", none⟩
     [("SKU", "ABC123"), ("Date", "not-a-date"), ("Qty", "10")] []
     ⟨[], [], 0, []⟩ (by decide)⟩

/-- An already-executed hash is not marked EXECUTED by the next batch. -/
theorem executed_not_executesHash (st : Agency.AuctobotState) (h : String)
    (hm : h ∈ st.executed_hashes) : ¬ Agency.executesHash st h := by
  rintro ⟨p, hp, hph, hst⟩
  have hp1 : p ∈ (Agency.execLoop st st.queue).2.1 := hp
  have := execLoop_executed_skipped st.queue st h hm p hp1 hph
  rw [hst] at this
  cases this

/-- Both agent operations preserve membership in the executed-hash set. -/
theorem applyAgcOp_hashes_mono (st : Agency.AuctobotState) (op : Agency.AgcOp)
    (h : String) (hm : h ∈ st.executed_hashes) :
    h ∈ (Agency.applyAgcOp st op).executed_hashes := by
  cases op with
  | queue pkg =>
      unfold Agency.applyAgcOp Agency.queue_decision
      by_cases hq : pkg.hash ∈ st.executed_hashes <;> simp [hq, hm]
  | batch => exact execLoop_hashes_mono st.queue st h hm

/-- Membership in the executed-hash set survives any operation sequence. -/
theorem runAgcOps_hashes_mono (ops : List Agency.AgcOp)
    (st : Agency.AuctobotState) (h : String) (hm : h ∈ st.executed_hashes) :
    h ∈ (Agency.runAgcOps st ops).executed_hashes := by
  induction ops generalizing st with
  | nil => exact hm
  | cons op rest ih => exact ih _ (applyAgcOp_hashes_mono st op h hm)

/-- C3 (amended): queueing two identically-hashed packages whose action
dispatches (REPLENISH or PRICE_CHANGE) yields exactly one EXECUTED and one
SKIPPED outcome in one batch — when dispatch raises instead, both fail (see
the counterexample) — and a hash in the executed-hash set is never executed
again by any later `queue_decision`/`execute_batch` step. -/
theorem C3_replay_safety :
    (∀ (st : Agency.AuctobotState) (pa pb : Agency.DecisionPackage),
       st.queue = [] →
       pa.hash = pb.hash →
       pa.hash ∉ st.executed_hashes →
       (pa.action = "REPLENISH" ∨ pa.action = "PRICE_CHANGE") →
       ((Agency.execute_batch
           (Agency.queue_decision (Agency.queue_decision st pa) pb)).2.1.map
          Agency.DecisionPackage.status) = [.executed, .skipped]) ∧
    (∀ (st : Agency.AuctobotState) (h : String) (ops : List Agency.AgcOp),
       h ∈ st.executed_hashes →
       h ∈ (Agency.runAgcOps st ops).executed_hashes ∧
       ¬ Agency.executesHash (Agency.runAgcOps st ops) h) := by
  constructor
  · intro st pa pb hq hhash hmem hact
    have hmemb : pb.hash ∉ st.executed_hashes := by rw [← hhash]; exact hmem
    have hqd : Agency.queue_decision (Agency.queue_decision st pa) pb =
        { st with queue := [pa, pb] } := by
      unfold Agency.queue_decision
      rw [if_neg hmem, if_neg hmemb]
      simp [hq]
    rw [hqd]
    have hstep1 : pa.hash ∉
        ({ st with queue := [pa, pb] } : Agency.AuctobotState).executed_hashes := hmem
    have hmem2 : pb.hash ∈ st.executed_hashes ++ [pa.hash] := by
      rw [← hhash]
      exact List.mem_append_right _ (List.mem_singleton_self _)
    rcases hact with ha | ha <;>
      simp [Agency.execute_batch, Agency.execLoop, Agency.execStep,
            hstep1, hmem, ha, hmem2]
  · intro st h ops hm
    refine ⟨runAgcOps_hashes_mono ops st h hm, ?_⟩
    exact executed_not_executesHash _ h (runAgcOps_hashes_mono ops st h hm)

/-- Two packages built with identical content, timestamp and nonce (hence
identical hashes) but an undispatchable action. -/
def C3pkgA : Agency.DecisionPackage :=
  Agency.mkDecisionPackage "PKG-A" "T0" "N0" "FOO" "SKU-9" 1 "restock"

def C3pkgB : Agency.DecisionPackage :=
  Agency.mkDecisionPackage "PKG-B" "T0" "N0" "FOO" "SKU-9" 1 "restock"

/-- C3 (counterexample): two identically-hashed packages, neither previously
executed, are both queued, yet after one `execute_batch()` neither ends
EXECUTED and neither ends SKIPPED — both end FAILED, because the unknown
action raises before the first package's hash is recorded. -/
theorem C3_counterexample :
    C3pkgA.hash = C3pkgB.hash ∧
    C3pkgA.hash ∉ Agency.initState.executed_hashes ∧
    ((Agency.execute_batch
        (Agency.queue_decision (Agency.queue_decision Agency.initState C3pkgA)
          C3pkgB)).2.1.map Agency.DecisionPackage.status) =
      [.failed, .failed] := by decide

/-- Witness for C3 (amended), with two REPLENISH packages sharing timestamp
and nonce from the empty agent state, and the invariant run one batch after
a hash is recorded. -/
theorem C3_replay_safety_witness :
    ((Agency.execute_batch
        (Agency.queue_decision
          (Agency.queue_decision Agency.initState
            (Agency.mkDecisionPackage "PKG-A" "T0" "N0" "REPLENISH" "SKU-9" 1 "r"))
          (Agency.mkDecisionPackage "PKG-B" "T0" "N0" "REPLENISH" "SKU-9" 1 "r"))).2.1.map
       Agency.DecisionPackage.status) = [.executed, .skipped] ∧
    ("h0" ∈ (Agency.runAgcOps { Agency.initState with executed_hashes := ["h0"] }
        [.batch]).executed_hashes ∧
     ¬ Agency.executesHash (Agency.runAgcOps
        { Agency.initState with executed_hashes := ["h0"] } [.batch]) "h0") :=
  ⟨C3_replay_safety.1 Agency.initState
     (Agency.mkDecisionPackage "PKG-A" "T0" "N0" "REPLENISH" "SKU-9" 1 "r")
     (Agency.mkDecisionPackage "PKG-B" "T0" "N0" "REPLENISH" "SKU-9" 1 "r")
     (by decide) (by decide) (by decide) (Or.inl (by decide)),
   C3_replay_safety.2 { Agency.initState with executed_hashes := ["h0"] } "h0"
     [.batch] (by decide)⟩

/-- Positional behaviour of the batch loop on a not-yet-executed package
with an unknown action whose hash is unique in the batch: it comes out
FAILED, lands in history, is reported in the results with its error, and its
hash is not recorded. -/
theorem execLoop_unknown_action (pkgs : List Agency.DecisionPackage)
    (st : Agency.AuctobotState) (i : ℕ) (hi : i < pkgs.length)
    (ha1 : (pkgs.get ⟨i, hi⟩).action ≠ "REPLENISH")
    (ha2 : (pkgs.get ⟨i, hi⟩).action ≠ "PRICE_CHANGE")
    (hm : (pkgs.get ⟨i, hi⟩).hash ∉ st.executed_hashes)
    (hnd : ∀ (j : ℕ) (hj : j < pkgs.length), j ≠ i →
       (pkgs.get ⟨j, hj⟩).hash ≠ (pkgs.get ⟨i, hi⟩).hash) :
    ∃ hlen : i < (Agency.execLoop st pkgs).2.1.length,
      (Agency.execLoop st pkgs).2.1.get ⟨i, hlen⟩ =
        { pkgs.get ⟨i, hi⟩ with status := .failed } ∧
      { pkgs.get ⟨i, hi⟩ with status := .failed } ∈
        (Agency.execLoop st pkgs).1.history ∧
      (∃ hlen2 : i < (Agency.execLoop st pkgs).2.2.length,
         (Agency.execLoop st pkgs).2.2.get ⟨i, hlen2⟩ =
           .failed (pkgs.get ⟨i, hi⟩).id
             ("Unknown action: " ++ (pkgs.get ⟨i, hi⟩).action)) ∧
      (pkgs.get ⟨i, hi⟩).hash ∉ (Agency.execLoop st pkgs).1.executed_hashes := by
  induction pkgs generalizing st i with
  | nil => exact absurd hi (by simp)
  | cons q rest ih =>
      cases i with
      | zero =>
          have hq0 : (q :: rest).get ⟨0, hi⟩ = q := rfl
          rw [hq0] at ha1 ha2 hm hnd ⊢
          have hstep := execStep_unknown_failed st q hm ha1 ha2
          have hlen1 : (Agency.execLoop st (q :: rest)).2.1.length =
              (q :: rest).length := (execLoop_lengths _ _).1
          refine ⟨by rw [hlen1]; simp, ?_, ?_, ?_, ?_⟩
          · simp [Agency.execLoop, hstep]
          · show { q with status := .failed } ∈
              (Agency.execLoop (Agency.execStep st q).1 rest).1.history
            refine execLoop_history_mono rest _ _ ?_
            rw [hstep]
            exact List.mem_append_right _ (List.mem_singleton_self _)
          · have hlen2 : (Agency.execLoop st (q :: rest)).2.2.length =
                (q :: rest).length := (execLoop_lengths _ _).2
            refine ⟨by rw [hlen2]; simp, ?_⟩
            simp [Agency.execLoop, hstep]
          · show q.hash ∉ (Agency.execLoop (Agency.execStep st q).1 rest).1.executed_hashes
            refine execLoop_hashes_not_mem rest _ _ ?_ ?_
            · rw [hstep]; exact hm
            · intro p hp
              have hj : rest.indexOf p < rest.length := List.indexOf_lt_length.mpr hp
              have hjq : (q :: rest).get ⟨rest.indexOf p + 1, by simpa using hj⟩ = p := by
                simp [List.indexOf_get hj]
              have := hnd (rest.indexOf p + 1) (by simpa using hj) (by omega)
              rw [hjq] at this
              exact this
      | succ k =>
          have hk : k < rest.length := by simpa using hi
          have hget : (q :: rest).get ⟨k + 1, hi⟩ = rest.get ⟨k, hk⟩ := rfl
          rw [hget] at ha1 ha2 hm hnd ⊢
          have hq0 : q.hash ≠ (rest.get ⟨k, hk⟩).hash := by
            have := hnd 0 (by simp) (by omega)
            simpa using this
          have hm1 : (rest.get ⟨k, hk⟩).hash ∉
              (Agency.execStep st q).1.executed_hashes := by
            rcases execStep_hashes st q with he | he <;> rw [he]
            · exact hm
            · intro hmem
              rcases List.mem_append.mp hmem with hl | hr
              · exact hm hl
              · exact hq0 (List.mem_singleton.mp hr).symm
          have hnd1 : ∀ (j : ℕ) (hj : j < rest.length), j ≠ k →
              (rest.get ⟨j, hj⟩).hash ≠ (rest.get ⟨k, hk⟩).hash := by
            intro j hj hjk
            have := hnd (j + 1) (by simpa using hj) (by omega)
            simpa using this
          obtain ⟨hl1, he1, he2, ⟨hl2, he3⟩, he4⟩ :=
            ih ((Agency.execStep st q).1) k hk ha1 ha2 hm1 hnd1
          refine ⟨?_, ?_, he2, ⟨?_, ?_⟩, he4⟩
          · rw [(execLoop_lengths (q :: rest) st).1]
            simpa using hk
          · show ((Agency.execStep st q).2.1 ::
                (Agency.execLoop (Agency.execStep st q).1 rest).2.1).get
                ⟨k + 1, by simpa using hl1⟩ = _
            simpa using he1
          · rw [(execLoop_lengths (q :: rest) st).2]
            simpa using hk
          · show ((Agency.execStep st q).2.2 ::
                (Agency.execLoop (Agency.execStep st q).1 rest).2.2).get
                ⟨k + 1, by simpa using hl2⟩ = _
            simpa using he3

/-- C10: in `execute_batch` every package whose dispatch raises (every
package whose action is neither REPLENISH nor PRICE_CHANGE, reached with its
hash not yet executed) ends FAILED, is appended to history, is reported in
the results with its error, and its hash is NOT added to the executed-hash
set — so a later package with the identical hash can still be queued — and
the queue is cleared at the end of the batch regardless of outcomes. -/
theorem C10_failed_dispatch :
    (∀ st : Agency.AuctobotState, (Agency.execute_batch st).1.queue = []) ∧
    (∀ (st : Agency.AuctobotState) (i : ℕ) (hi : i < st.queue.length),
       (st.queue.get ⟨i, hi⟩).action ≠ "REPLENISH" →
       (st.queue.get ⟨i, hi⟩).action ≠ "PRICE_CHANGE" →
       (st.queue.get ⟨i, hi⟩).hash ∉ st.executed_hashes →
       (∀ (j : ℕ) (hj : j < st.queue.length), j ≠ i →
          (st.queue.get ⟨j, hj⟩).hash ≠ (st.queue.get ⟨i, hi⟩).hash) →
       ∃ hlen : i < (Agency.execute_batch st).2.1.length,
         (Agency.execute_batch st).2.1.get ⟨i, hlen⟩ =
           { st.queue.get ⟨i, hi⟩ with status := .failed } ∧
         { st.queue.get ⟨i, hi⟩ with status := .failed } ∈
           (Agency.execute_batch st).1.history ∧
         (∃ hlen2 : i < (Agency.execute_batch st).2.2.length,
            (Agency.execute_batch st).2.2.get ⟨i, hlen2⟩ =
              .failed (st.queue.get ⟨i, hi⟩).id
                ("Unknown action: " ++ (st.queue.get ⟨i, hi⟩).action)) ∧
         (st.queue.get ⟨i, hi⟩).hash ∉
           (Agency.execute_batch st).1.executed_hashes) ∧
    (∀ (st : Agency.AuctobotState) (pkg : Agency.DecisionPackage),
       pkg.hash ∉ st.executed_hashes →
       Agency.queue_decision st pkg = { st with queue := st.queue ++ [pkg] }) := by
  refine ⟨fun st => rfl, ?_, ?_⟩
  · intro st i hi ha1 ha2 hm hnd
    exact execLoop_unknown_action st.queue st i hi ha1 ha2 hm hnd
  · intro st pkg hm
    unfold Agency.queue_decision
    rw [if_neg hm]

/-- A queued package with an unknown action, for the C10 witness. -/
def C10pkg : Agency.DecisionPackage :=
  Agency.mkDecisionPackage "PKG-X" "T1" "N1" "AUDIT" "SKU-3" 2 "check"

def C10state : Agency.AuctobotState :=
  Agency.queue_decision Agency.initState C10pkg

/-- Witness for C10 at a one-package queue holding an unknown action. -/
theorem C10_failed_dispatch_witness :
    (Agency.execute_batch C10state).1.queue = [] ∧
    (∃ hlen : 0 < (Agency.execute_batch C10state).2.1.length,
       (Agency.execute_batch C10state).2.1.get ⟨0, hlen⟩ =
         { C10state.queue.get ⟨0, by decide⟩ with status := .failed } ∧
       { C10state.queue.get ⟨0, by decide⟩ with status := .failed } ∈
         (Agency.execute_batch C10state).1.history ∧
       (∃ hlen2 : 0 < (Agency.execute_batch C10state).2.2.length,
          (Agency.execute_batch C10state).2.2.get ⟨0, hlen2⟩ =
            .failed (C10state.queue.get ⟨0, by decide⟩).id
              ("Unknown action: " ++ (C10state.queue.get ⟨0, by decide⟩).action)) ∧
       (C10state.queue.get ⟨0, by decide⟩).hash ∉
         (Agency.execute_batch C10state).1.executed_hashes) ∧
    Agency.queue_decision (Agency.execute_batch C10state).1 C10pkg =
      { (Agency.execute_batch C10state).1 with
          queue := (Agency.execute_batch C10state).1.queue ++ [C10pkg] } :=
  ⟨C10_failed_dispatch.1 C10state,
   C10_failed_dispatch.2.1 C10state 0 (by decide) (by decide) (by decide)
     (by decide)
     (by
        intro j hj hji
        exfalso
        have hl : C10state.queue.length = 1 := by decide
        rw [hl] at hj
        omega),
   C10_failed_dispatch.2.2 (Agency.execute_batch C10state).1 C10pkg (by decide)⟩

/-- C5: `fetch_policy` resolves with strict three-tier precedence — an
entity-specific row shadows a `GLOBAL` row, which shadows the compiled
default constant. -/
theorem C5_policy_cascade :
    (∀ (db : Policy.PolicyDB) (key e : String) (v : ℚ), e ≠ "" →
       Policy.fetchOne db key e = some v →
       Policy.fetch_policy db key (some e) = v) ∧
    (∀ (db : Policy.PolicyDB) (key e : String) (g : ℚ),
       Policy.fetchOne db key e = none →
       Policy.fetchOne db key "GLOBAL" = some g →
       Policy.fetch_policy db key (some e) = g) ∧
    (∀ (db : Policy.PolicyDB) (key e : String),
       Policy.fetchOne db key e = none →
       Policy.fetchOne db key "GLOBAL" = none →
       Policy.fetch_policy db key (some e) = Policy.defaultsGet key) := by
  refine ⟨?_, ?_, ?_⟩
  · intro db key e v he hv
    simp [Policy.fetch_policy, he, hv]
  · intro db key e g h1 h2
    by_cases he : e = ""
    · subst he
      simp [Policy.fetch_policy, Policy.fetchGlobalOrDefault, h2]
    · simp [Policy.fetch_policy, he, h1, Policy.fetchGlobalOrDefault, h2]
  · intro db key e h1 h2
    by_cases he : e = ""
    · subst he
      simp [Policy.fetch_policy, Policy.fetchGlobalOrDefault, h2]
    · simp [Policy.fetch_policy, he, h1, Policy.fetchGlobalOrDefault, h2]

/-- Concrete table for the C5 witness: GLOBAL value 10 and an entity-specific
override 5 for the same key, as in the spec's example. -/
def C5db : Policy.PolicyDB :=
  [⟨"MAX_AUTO_SPEND", "GLOBAL", 10⟩, ⟨"MAX_AUTO_SPEND", "SKU-1", 5⟩]

/-- Witness for C5 at the spec's example values. -/
theorem C5_policy_cascade_witness :
    (("SKU-1" ≠ "") ∧ Policy.fetchOne C5db "MAX_AUTO_SPEND" "SKU-1" = some 5 ∧
      Policy.fetch_policy C5db "MAX_AUTO_SPEND" (some "SKU-1") = 5) ∧
    (Policy.fetchOne C5db "MAX_AUTO_SPEND" "SKU-2" = none ∧
      Policy.fetchOne C5db "MAX_AUTO_SPEND" "GLOBAL" = some 10 ∧
      Policy.fetch_policy C5db "MAX_AUTO_SPEND" (some "SKU-2") = 10) ∧
    (Policy.fetchOne [] "MAX_AUTO_SPEND" "SKU-1" = none ∧
      Policy.fetch_policy [] "MAX_AUTO_SPEND" (some "SKU-1") =
        Policy.defaultsGet "MAX_AUTO_SPEND") :=
  ⟨⟨by decide, by decide,
    C5_policy_cascade.1 C5db "MAX_AUTO_SPEND" "SKU-1" 5 (by decide) (by decide)⟩,
   ⟨by decide, by decide,
    C5_policy_cascade.2.1 C5db "MAX_AUTO_SPEND" "SKU-2" 10 (by decide) (by decide)⟩,
   ⟨by decide,
    C5_policy_cascade.2.2 [] "MAX_AUTO_SPEND" "SKU-1" (by decide) (by decide)⟩⟩

/-- C7: for every action type other than ORDER, HIKE and MARKDOWN, and every
value, entity and context, `validate_action` returns `(True, "Approved")`. -/
theorem C7_unknown_action_implicitly_approved
    (db : Policy.PolicyDB) (action_type : String) (value : ℚ) (entity_id : String)
    (context : Option Policy.Ctx)
    (h1 : action_type ≠ "ORDER") (h2 : action_type ≠ "HIKE")
    (h3 : action_type ≠ "MARKDOWN") :
    Policy.validate_action db action_type value entity_id context =
      .ok (true, "Approved") := by
  simp [Policy.validate_action, h1, h2, h3]

/-- Witness for C7 at the unknown action `"FOO"`. -/
theorem C7_unknown_action_implicitly_approved_witness :
    (("FOO" : String) ≠ "ORDER" ∧ ("FOO" : String) ≠ "HIKE" ∧
      ("FOO" : String) ≠ "MARKDOWN") ∧
    Policy.validate_action [] "FOO" 123 "SKU-1" none = .ok (true, "Approved") :=
  ⟨⟨by decide, by decide, by decide⟩,
   C7_unknown_action_implicitly_approved [] "FOO" 123 "SKU-1" none
     (by decide) (by decide) (by decide)⟩

/-- C8: with no MARKDOWN policy rows the compiled default 40.0 applies and
`validate_action("MARKDOWN", 45.0, "SKU-1", {})` is rejected with the reason
ending `"exceeds max depth (40.0%)"`; in general a MARKDOWN action is
rejected exactly when its value exceeds the resolved `MAX_MARKDOWN_DEPTH`. -/
theorem C8_markdown_depth_cap :
    (Policy.validate_action [] "MARKDOWN" 45 "SKU-1" (some []) =
       .ok (false, "Markdown (45.0%) exceeds max depth (40.0%)")) ∧
    (∀ (db : Policy.PolicyDB) (v : ℚ) (e : String) (ctx : Option Policy.Ctx),
       (v > Policy.fetch_policy db "MAX_MARKDOWN_DEPTH" (some e) →
          Policy.validate_action db "MARKDOWN" v e ctx =
            .ok (false, "Markdown (" ++ Util.fmtPyFloat v ++
                 "%) exceeds max depth (" ++
                 Util.fmtPyFloat (Policy.fetch_policy db "MAX_MARKDOWN_DEPTH" (some e)) ++
                 "%)")) ∧
       (¬ v > Policy.fetch_policy db "MAX_MARKDOWN_DEPTH" (some e) →
          Policy.validate_action db "MARKDOWN" v e ctx = .ok (true, "Approved"))) := by
  refine ⟨by decide, ?_⟩
  intro db v e ctx
  constructor
  · intro hgt
    simp [Policy.validate_action, hgt]
  · intro hng
    simp [Policy.validate_action, hng]

/-- After the key filter of `lock_system`, the `SYSTEM_LOCKED` lookup finds
exactly the appended `TRUE` row. -/
theorem find_locked_after_filter (l : List (String × String)) :
    ((l.filter (fun p => p.fst ≠ "SYSTEM_LOCKED")) ++
        [("SYSTEM_LOCKED", "TRUE")]).find? (fun p => p.fst == "SYSTEM_LOCKED") =
      some ("SYSTEM_LOCKED", "TRUE") := by
  induction l with
  | nil => rfl
  | cons p t ih =>
      by_cases hp : p.fst = "SYSTEM_LOCKED"
      · simp [List.filter_cons, hp, ih]
      · simp [List.filter_cons, List.find?_cons, hp, ih]

/-- `lock_system` always leaves the store locked. -/
theorem lock_system_locks (st : Domain.StoreState) :
    Domain.is_system_locked (Domain.lock_system st) = true := by
  unfold Domain.is_system_locked Domain.lock_system
  rw [find_locked_after_filter]
  rfl

/-- Every modelled governance operation preserves the locked flag. -/
theorem applyDomainOp_preserves_lock (st : Domain.StoreState)
    (op : Domain.DomainOp) (hl : Domain.is_system_locked st = true) :
    Domain.is_system_locked (Domain.applyDomainOp st op) = true := by
  cases op with
  | register et rows => simp [Domain.applyDomainOp, Domain.register_schema, hl]
  | delete et =>
      simpa [Domain.applyDomainOp, Domain.delete_schema, Domain.is_system_locked]
        using hl
  | lock => exact lock_system_locks st
  | apiDelete et => simp [Domain.applyDomainOp, Domain.api_delete_schema, hl]

/-- C2 (amended): the lock is one-way and blocks `register_schema` at the
store level; the lock check for deletions lives in the HTTP endpoint, which
rejects with 423 before calling `DomainManager.delete_schema`. -/
theorem C2_lock_one_way :
    (∀ (st : Domain.StoreState) (et : String) (rows : List Domain.FieldDef),
       Domain.is_system_locked st = true →
       Domain.register_schema st et rows = .error .systemLocked ∧
       (Domain.applyDomainOp st (.register et rows)).schema_registry =
         st.schema_registry) ∧
    (∀ st : Domain.StoreState,
       Domain.is_system_locked (Domain.lock_system st) = true) ∧
    (∀ (st : Domain.StoreState) (ops : List Domain.DomainOp),
       Domain.is_system_locked st = true →
       Domain.is_system_locked (Domain.runDomainOps st ops) = true) ∧
    (∀ (st : Domain.StoreState) (et : String),
       Domain.is_system_locked st = true →
       Domain.api_delete_schema st et = .error .locked423) := by
  refine ⟨?_, lock_system_locks, ?_, ?_⟩
  · intro st et rows hl
    constructor
    · simp [Domain.register_schema, hl]
    · simp [Domain.applyDomainOp, Domain.register_schema, hl]
  · intro st ops hl
    induction ops generalizing st with
    | nil => exact hl
    | cons op rest ih =>
        exact ih _ (applyDomainOp_preserves_lock st op hl)
  · intro st et hl
    simp [Domain.api_delete_schema, hl]

/-- A locked store holding one registered PRODUCT row, reached by calling
`lock_system` after a successful registration. -/
def C2state : Domain.StoreState :=
  Domain.lock_system
    ⟨[], [Domain.toSchemaRow "PRODUCT"
            { name := some "sku", generic_anchor := some "ANCHOR_PRODUCT_ID" }]⟩

/-- C2 (counterexample): on a locked store, `DomainManager.delete_schema`
does not fail — it deletes the PRODUCT schema rows, contradicting the claim
that after `lock_system()` every `delete_schema` call fails with a
locked-system error and writes nothing. -/
theorem C2_counterexample :
    Domain.is_system_locked C2state = true ∧
    C2state.schema_registry ≠ [] ∧
    (Domain.delete_schema C2state "PRODUCT").schema_registry = [] := by decide

/-- Witness for C2 (amended) at a concrete locked store. -/
theorem C2_lock_one_way_witness :
    Domain.is_system_locked (Domain.lock_system Domain.emptyStore) = true ∧
    Domain.register_schema (Domain.lock_system Domain.emptyStore) "PRODUCT" [] =
      .error .systemLocked ∧
    Domain.api_delete_schema (Domain.lock_system Domain.emptyStore) "LOCATION" =
      .error .locked423 ∧
    Domain.is_system_locked
      (Domain.runDomainOps (Domain.lock_system Domain.emptyStore)
        [.delete "PRODUCT", .lock, .register "PRODUCT" []]) = true :=
  ⟨by decide,
   (C2_lock_one_way.1 (Domain.lock_system Domain.emptyStore) "PRODUCT" [] (by decide)).1,
   C2_lock_one_way.2.2.2 (Domain.lock_system Domain.emptyStore) "LOCATION" (by decide),
   C2_lock_one_way.2.2.1 (Domain.lock_system Domain.emptyStore)
     [.delete "PRODUCT", .lock, .register "PRODUCT" []] (by decide)⟩

/-- C4: registering PRODUCT without both the product-id and product-name
anchors among the truthy `generic_anchor` declarations fails with the
constitutional-violation error, and the registry is left exactly as before
(the raise happens before the delete-and-insert). -/
theorem C4_abstention_guard
    (st : Domain.StoreState) (rows : List Domain.FieldDef)
    (hlock : Domain.is_system_locked st = false)
    (hmiss : ¬ ("ANCHOR_PRODUCT_ID" ∈ Domain.providedAnchors rows ∧
                "ANCHOR_PRODUCT_NAME" ∈ Domain.providedAnchors rows)) :
    (∃ missing, missing ≠ [] ∧
       Domain.register_schema st "PRODUCT" rows =
         .error (.constitutionalViolation "PRODUCT" missing)) ∧
    (Domain.applyDomainOp st (.register "PRODUCT" rows)).schema_registry =
      st.schema_registry := by
  have hfind : Domain.RETAIL_STANDARDS.find? (fun p => p.fst == "PRODUCT") =
      some ("PRODUCT", ["ANCHOR_PRODUCT_ID", "ANCHOR_PRODUCT_NAME"]) := by decide
  have hne : (["ANCHOR_PRODUCT_ID", "ANCHOR_PRODUCT_NAME"].filter
      (fun a => a ∉ Domain.providedAnchors rows)) ≠ [] := by
    by_cases h1 : "ANCHOR_PRODUCT_ID" ∈ Domain.providedAnchors rows
    · have h2 : "ANCHOR_PRODUCT_NAME" ∉ Domain.providedAnchors rows :=
        fun h2 => hmiss ⟨h1, h2⟩
      simp [List.filter_cons, h1, h2]
    · simp [List.filter_cons, h1]
  have hreg : Domain.register_schema st "PRODUCT" rows =
      .error (.constitutionalViolation "PRODUCT"
        (["ANCHOR_PRODUCT_ID", "ANCHOR_PRODUCT_NAME"].filter
          (fun a => a ∉ Domain.providedAnchors rows))) := by
    simp only [Domain.register_schema, hlock, hfind, Bool.false_eq_true, if_false]
    simp [hne]
    exact fun h1 h2 => hmiss ⟨h1, h2⟩
  exact ⟨⟨_, hne, hreg⟩, by simp [Domain.applyDomainOp, hreg]⟩

/-- Witness for C4: the verify_foundation failure case (only a product-id
anchor declared) on an unlocked empty store. -/
theorem C4_abstention_guard_witness :
    (Domain.is_system_locked Domain.emptyStore = false ∧
     ¬ ("ANCHOR_PRODUCT_ID" ∈
          Domain.providedAnchors [{ name := some "sku",
                                    generic_anchor := some "ANCHOR_PRODUCT_ID" }] ∧
        "ANCHOR_PRODUCT_NAME" ∈
          Domain.providedAnchors [{ name := some "sku",
                                    generic_anchor := some "ANCHOR_PRODUCT_ID" }])) ∧
    ((∃ missing, missing ≠ [] ∧
        Domain.register_schema Domain.emptyStore "PRODUCT"
          [{ name := some "sku", generic_anchor := some "ANCHOR_PRODUCT_ID" }] =
          .error (.constitutionalViolation "PRODUCT" missing)) ∧
     (Domain.applyDomainOp Domain.emptyStore
        (.register "PRODUCT"
          [{ name := some "sku",
             generic_anchor := some "ANCHOR_PRODUCT_ID" }])).schema_registry =
       Domain.emptyStore.schema_registry) :=
  ⟨⟨by decide, by decide⟩,
   C4_abstention_guard Domain.emptyStore
     [{ name := some "sku", generic_anchor := some "ANCHOR_PRODUCT_ID" }]
     (by decide) (by decide)⟩

/-- C9: an entity type absent from `RETAIL_STANDARDS` gets no mandatory-
anchor validation at all on an unlocked store — registration succeeds for
any rows (even anchor-free ones) and writes the declared mappings as given
(delete old rows for the type, insert the mapped rows). -/
theorem C9_unknown_entity_skips_validation
    (st : Domain.StoreState) (entity_type : String) (rows : List Domain.FieldDef)
    (hlock : Domain.is_system_locked st = false)
    (hstd : Domain.RETAIL_STANDARDS.find? (fun p => p.fst == entity_type) = none) :
    Domain.register_schema st entity_type rows =
      .ok { st with schema_registry :=
            (st.schema_registry.filter (fun r => r.entity_type ≠ entity_type)) ++
            rows.map (Domain.toSchemaRow entity_type) } := by
  simp only [Domain.register_schema, hlock, Bool.false_eq_true, if_false, hstd]
  rfl

/-- Witness for C9: registering CUSTOMER (not in the constitution) with a
single anchor-free field on an unlocked empty store. -/
theorem C9_unknown_entity_skips_validation_witness :
    (Domain.is_system_locked Domain.emptyStore = false ∧
     Domain.RETAIL_STANDARDS.find? (fun p => p.fst == "CUSTOMER") = none) ∧
    Domain.register_schema Domain.emptyStore "CUSTOMER"
        [{ name := some "cust_id" }] =
      .ok { Domain.emptyStore with schema_registry :=
            ((Domain.emptyStore.schema_registry.filter
              (fun r => r.entity_type ≠ "CUSTOMER")) ++
            ([{ name := some "cust_id" }] : List Domain.FieldDef).map
              (Domain.toSchemaRow "CUSTOMER")) } :=
  ⟨⟨by decide, by decide⟩,
   C9_unknown_entity_skips_validation Domain.emptyStore "CUSTOMER"
     [{ name := some "cust_id" }] (by decide) (by decide)⟩

/-- Witness for C8's general clause at value 45 over an empty policy table. -/
theorem C8_markdown_depth_cap_witness :
    ((45 : ℚ) > Policy.fetch_policy [] "MAX_MARKDOWN_DEPTH" (some "SKU-1")) ∧
    Policy.validate_action [] "MARKDOWN" 45 "SKU-1" none =
      .ok (false, "Markdown (" ++ Util.fmtPyFloat 45 ++ "%) exceeds max depth (" ++
           Util.fmtPyFloat (Policy.fetch_policy [] "MAX_MARKDOWN_DEPTH" (some "SKU-1")) ++
           "%)") :=
  ⟨by decide, (C8_markdown_depth_cap.2 [] 45 "SKU-1" none).1 (by decide)⟩
